import Mathlib

/-!
Verification of the pytzcvrt interaction engine (src/pytzcvrt.py).

This file gives a shallow embedding of the program's pure core into Lean:
the digit-template field editor, the span-conversion engine, the region
router, the country-grouping / alias-inference algorithm, the settings
actions and the main-screen key handler.  External collaborators
(curses, the filesystem, the zone database, the config file) are
abstracted as explicit parameters, exactly at the boundaries the
program itself uses: filesystem real-path resolution becomes a function
`String → Option String`, the zone database becomes a function
`String → Timezone`, the persisted config becomes a record field.

Machine integers are modelled as `Nat`/`Int` (Python integers are
unbounded, so no wrap-around modelling is needed).  Python dicts are
modelled as association lists with insertion order, `sorted` as a
stable insertion sort (identical output: all sort keys involved are
distinct), and Python strings as `String`/`List Char`.
-/

/-! Section: Digit template constants (src/pytzcvrt.py lines 62-70) -/

def INPUT_TEMPLATE : String := "0000-00-00 00:00"

def DIGIT_POSITIONS : List Nat :=
  (List.range INPUT_TEMPLATE.length).filter
    (fun i => (INPUT_TEMPLATE.data.getD i ' ').isDigit)

def FIRST_DIGIT : Nat := DIGIT_POSITIONS.headD 0

def LAST_DIGIT : Nat := DIGIT_POSITIONS.getLastD 0

/-- Source `INPUT_TEMPLATE.index(" ") + 1` -/
def TIME_FIRST_DIGIT : Nat := INPUT_TEMPLATE.data.findIdx (fun c => c = ' ') + 1

example : DIGIT_POSITIONS = [0, 1, 2, 3, 5, 6, 8, 9, 11, 12, 14, 15] := by decide

example : FIRST_DIGIT = 0 ∧ LAST_DIGIT = 15 ∧ TIME_FIRST_DIGIT = 11 := by decide

/-! Section: Digit cursor helpers (src/pytzcvrt.py lines 237-268) -/

/-- Source `next_digit_pos`: lowest digit position `≥ pos`, else `LAST_DIGIT`. -/
def next_digit_pos (pos : Nat) : Nat :=
  match DIGIT_POSITIONS.find? (fun d => pos ≤ d) with
  | some d => d
  | none => LAST_DIGIT

/-- Source `prev_digit_before`: highest digit position `< pos`, else `pos` itself. -/
def prev_digit_before (pos : Nat) : Nat :=
  match DIGIT_POSITIONS.reverse.find? (fun d => d < pos) with
  | some d => d
  | none => pos

/-- Source `next_digit_after`: lowest digit position `> pos`, else `pos` itself. -/
def next_digit_after (pos : Nat) : Nat :=
  match DIGIT_POSITIONS.find? (fun d => pos < d) with
  | some d => d
  | none => pos

/-- Source `cursor_from_click` (clicks may land left of the field, hence `Int`). -/
def cursor_from_click (rel : Int) : Nat :=
  if rel ≤ (FIRST_DIGIT : Int) then FIRST_DIGIT
  else if (LAST_DIGIT : Int) ≤ rel then LAST_DIGIT
  else if DIGIT_POSITIONS.contains rel.toNat then rel.toNat
  else
    match DIGIT_POSITIONS.find? (fun (d : Nat) => rel < (d : Int)) with
    | some d => d
    | none => LAST_DIGIT

theorem mem_of_next_digit_pos (pos : Nat) : next_digit_pos pos ∈ DIGIT_POSITIONS := by
  unfold next_digit_pos
  cases h : DIGIT_POSITIONS.find? (fun d => pos ≤ d) with
  | some d => exact List.mem_of_find?_eq_some h
  | none => decide

theorem mem_of_prev_digit_before {pos : Nat} (h : pos ∈ DIGIT_POSITIONS) :
    prev_digit_before pos ∈ DIGIT_POSITIONS := by
  unfold prev_digit_before
  cases hf : DIGIT_POSITIONS.reverse.find? (fun d => d < pos) with
  | some d =>
    have := List.mem_of_find?_eq_some hf
    exact (List.mem_reverse).mp this
  | none => exact h

theorem mem_of_next_digit_after {pos : Nat} (h : pos ∈ DIGIT_POSITIONS) :
    next_digit_after pos ∈ DIGIT_POSITIONS := by
  unfold next_digit_after
  cases hf : DIGIT_POSITIONS.find? (fun d => pos < d) with
  | some d => exact List.mem_of_find?_eq_some hf
  | none => exact h

/-! Section: Strict datetime parsing (src/pytzcvrt.py lines 62, 233-234)

`parse_dt` is `datetime.strptime(text.strip(), "%Y-%m-%d %H:%M")`.
CPython strptime compiles the format into the anchored regex
`(?P<Y>\d\d\d\d)-(?P<m>1[0-2]|0[1-9]|[1-9])-(?P<d>3[01]|[12]\d|0[1-9]|[1-9])\s+(?P<H>2[0-3]|[0-1]\d|\d):(?P<M>[0-5]\d|\d)`
(runs of whitespace in the format become `\s+`), takes the first match in
backtracking order, rejects if the match does not consume the whole
string, and then the `datetime` constructor validates the field ranges.
We model the regex engine by enumerating candidate matches in
backtracking preference order and taking the head. -/

structure DTV where
  year : Nat
  month : Nat
  day : Nat
  hour : Nat
  minute : Nat
deriving DecidableEq, Repr

/-- Regex `\d`: one decimal digit (candidates in preference order). -/
def matchDigit : List Char → List (Nat × List Char)
  | c :: rest => if c.isDigit then [(c.toNat - 48, rest)] else []
  | [] => []

/-- A literal character of the format string. -/
def matchLit (ch : Char) : List Char → List (Unit × List Char)
  | c :: rest => if c = ch then [((), rest)] else []
  | [] => []

/-- Regex `\s+` (greedy): candidate splits, longest first. -/
def matchWs : List Char → List (Unit × List Char)
  | c :: rest =>
    if c.isWhitespace then matchWs rest ++ [((), rest)] else []
  | [] => []

/-- Format directive `%Y`: exactly four digits. -/
def matchYear (l : List Char) : List (Nat × List Char) :=
  (matchDigit l).flatMap fun (a, l1) =>
  (matchDigit l1).flatMap fun (b, l2) =>
  (matchDigit l2).flatMap fun (c, l3) =>
  (matchDigit l3).map fun (d, l4) => (a * 1000 + b * 100 + c * 10 + d, l4)

/-- Format directive `%m`: `1[0-2]|0[1-9]|[1-9]`, alternatives in regex order. -/
def matchMonth (l : List Char) : List (Nat × List Char) :=
  (match l with
   | '1' :: c :: rest =>
     if '0' ≤ c ∧ c ≤ '2' then [(10 + (c.toNat - 48), rest)] else []
   | _ => []) ++
  (match l with
   | '0' :: c :: rest =>
     if '1' ≤ c ∧ c ≤ '9' then [(c.toNat - 48, rest)] else []
   | _ => []) ++
  (match l with
   | c :: rest =>
     if '1' ≤ c ∧ c ≤ '9' then [(c.toNat - 48, rest)] else []
   | _ => [])

/-- Format directive `%d`: `3[01]|[12]\d|0[1-9]|[1-9]`, alternatives in regex order. -/
def matchDay (l : List Char) : List (Nat × List Char) :=
  (match l with
   | '3' :: c :: rest =>
     if c = '0' ∨ c = '1' then [(30 + (c.toNat - 48), rest)] else []
   | _ => []) ++
  (match l with
   | c :: c2 :: rest =>
     if ('1' ≤ c ∧ c ≤ '2') ∧ c2.isDigit then
       [((c.toNat - 48) * 10 + (c2.toNat - 48), rest)]
     else []
   | _ => []) ++
  (match l with
   | '0' :: c :: rest =>
     if '1' ≤ c ∧ c ≤ '9' then [(c.toNat - 48, rest)] else []
   | _ => []) ++
  (match l with
   | c :: rest =>
     if '1' ≤ c ∧ c ≤ '9' then [(c.toNat - 48, rest)] else []
   | _ => [])

/-- Format directive `%H`: `2[0-3]|[0-1]\d|\d`, alternatives in regex order. -/
def matchHour (l : List Char) : List (Nat × List Char) :=
  (match l with
   | '2' :: c :: rest =>
     if '0' ≤ c ∧ c ≤ '3' then [(20 + (c.toNat - 48), rest)] else []
   | _ => []) ++
  (match l with
   | c :: c2 :: rest =>
     if ('0' ≤ c ∧ c ≤ '1') ∧ c2.isDigit then
       [((c.toNat - 48) * 10 + (c2.toNat - 48), rest)]
     else []
   | _ => []) ++
  matchDigit l

/-- Format directive `%M`: `[0-5]\d|\d`, alternatives in regex order. -/
def matchMinute (l : List Char) : List (Nat × List Char) :=
  (match l with
   | c :: c2 :: rest =>
     if ('0' ≤ c ∧ c ≤ '5') ∧ c2.isDigit then
       [((c.toNat - 48) * 10 + (c2.toNat - 48), rest)]
     else []
   | _ => []) ++
  matchDigit l

/-- All matches of the compiled format regex, in backtracking order. -/
def strptimeCandidates (l : List Char) : List (DTV × List Char) :=
  (matchYear l).flatMap fun (y, l) =>
  (matchLit '-' l).flatMap fun (_, l) =>
  (matchMonth l).flatMap fun (mo, l) =>
  (matchLit '-' l).flatMap fun (_, l) =>
  (matchDay l).flatMap fun (d, l) =>
  (matchWs l).flatMap fun (_, l) =>
  (matchHour l).flatMap fun (h, l) =>
  (matchLit ':' l).flatMap fun (_, l) =>
  (matchMinute l).map fun (mi, l) => (DTV.mk y mo d h mi, l)

/-- Gregorian leap year, as in `calendar`/`datetime`. -/
def isLeap (y : Nat) : Bool := y % 4 = 0 ∧ (y % 100 ≠ 0 ∨ y % 400 = 0)

def daysInMonth (y m : Nat) : Nat :=
  if m = 2 then (if isLeap y then 29 else 28)
  else if m = 4 ∨ m = 6 ∨ m = 9 ∨ m = 11 then 30
  else 31

/-- The `datetime(Y, m, d, H, M)` constructor checks (MINYEAR=1, MAXYEAR=9999). -/
def validateDT (v : DTV) : Option DTV :=
  if 1 ≤ v.year ∧ v.year ≤ 9999 ∧ 1 ≤ v.month ∧ v.month ≤ 12 ∧
      1 ≤ v.day ∧ v.day ≤ daysInMonth v.year v.month ∧
      v.hour ≤ 23 ∧ v.minute ≤ 59 then
    some v
  else none

/-- Source `str.strip()`: drop whitespace from both ends. -/
def stripChars (l : List Char) : List Char :=
  ((l.dropWhile Char.isWhitespace).reverse.dropWhile Char.isWhitespace).reverse

/-- Source `parse_dt(text)`: strip, match the strict grammar, validate the fields. -/
def parse_dt (text : List Char) : Option DTV :=
  match strptimeCandidates (stripChars text) with
  | [] => none
  | (v, rest) :: _ => if rest = [] then validateDT v else none

example : parse_dt "2024-01-01 00:00".data = some (DTV.mk 2024 1 1 0 0) := by decide

example : parse_dt "0000-00-00 00:00".data = none := by decide

example : parse_dt "2024-02-30 10:00".data = none := by decide

example : parse_dt " 2024-2-3 7:5 ".data = some (DTV.mk 2024 2 3 7 5) := by decide

/-! Section: Naive datetimes as seconds, zone abstraction

A parsed naive datetime is encoded as seconds since the Unix epoch in
the proleptic Gregorian calendar (days-from-civil algorithm).  This
encoding mirrors `datetime`'s total order and subtraction exactly.
A `Timezone` abstracts `zoneinfo.ZoneInfo`: `attachOffset` is the UTC
offset (seconds) that `utcoffset()` reports for a wall-clock time
attached via `replace(tzinfo=...)` (fold=0 policy), `instOffset` is the
UTC offset in force at a given instant, used by `astimezone`. -/

def toNaiveSeconds (v : DTV) : Int :=
  let y : Int := if v.month ≤ 2 then (v.year : Int) - 1 else (v.year : Int)
  let era : Int := y.fdiv 400
  let yoe : Int := y - era * 400
  let mp : Int := (v.month : Int) + (if 2 < v.month then -3 else 9)
  let doy : Int := (153 * mp + 2).fdiv 5 + (v.day : Int) - 1
  let doe : Int := yoe * 365 + yoe.fdiv 4 - yoe.fdiv 100 + doy
  let days : Int := era * 146097 + doe - 719468
  days * 86400 + (v.hour : Int) * 3600 + (v.minute : Int) * 60

example : toNaiveSeconds (DTV.mk 1970 1 1 0 0) = 0 := by decide

example : toNaiveSeconds (DTV.mk 2024 1 1 0 0) = 1704067200 := by decide

structure Timezone where
  attachOffset : Int → Int
  instOffset : Int → Int

/-- UTC instant of a wall-clock time attached to a zone
(`naive.replace(tzinfo=tz)` compared/subtracted as an instant). -/
def attachInstant (tz : Timezone) (naive : Int) : Int :=
  naive - tz.attachOffset naive

/-- Local wall-clock seconds of `astimezone(tz)` applied to an instant. -/
def astimezoneLocal (tz : Timezone) (instant : Int) : Int :=
  instant + tz.instOffset instant

/-- The all-zero / all-UTC zone (used for concrete witnesses). -/
def utcTz : Timezone := Timezone.mk (fun _ => 0) (fun _ => 0)

/-- A fixed-offset zone (offset in seconds), e.g. UTC-8. -/
def fixedTz (off : Int) : Timezone := Timezone.mk (fun _ => off) (fun _ => off)

/-! Section: Session state (the `state` dict) and the conversion engine

Only the fields the verified handlers read or write are modelled.
`persisted` models the config file written by `save_config` (an
external collaborator whose observable effect is the record written).
`box_style` holds the key into `BOX_STYLES` (the style dict itself is
pure presentation data). -/

structure PersistedConfig where
  selected : List String
  box_drawing : String
  colors_enabled : Bool
  theme : String
deriving DecidableEq, Repr

structure AppState where
  selected : List String
  from_idx : Nat
  start_text : List Char
  end_text : List Char
  cursor_start : Nat
  cursor_end : Nat
  focus_main : Nat
  from_list_open : Bool
  error : String
  results : List (String × Int × Int)
  duration_str : String
  total_minutes : Int
  settings_selected : List String
  sel_idx : Nat
  settings_msg : String
  settings_open : Bool
  settings_box_mode : String
  settings_colors_enabled : Bool
  settings_theme : String
  box_mode : String
  box_warning : String
  box_style : String
  unicode_supported : Bool
  colors_supported : Bool
  colors_enabled : Bool
  colors_warning : String
  theme_name : String
  persisted : PersistedConfig
deriving Repr

/-- Python `f"{n:02d}"`. -/
def pad2 (n : Int) : String :=
  let s := toString n
  if s.length < 2 then "0" ++ s else s

/-- Source `compute_results` (src/pytzcvrt.py lines 520-568).  `tzdb`
abstracts `ZoneInfo`; a result entry is the zone id with the local
wall-clock seconds of the converted start and end instants.  `start`
and `end` are built with `replace(tzinfo=from_tz)` from the SAME
`ZoneInfo` object, and CPython compares and subtracts aware datetimes
that share their `tzinfo` by the naive wall-clock values (the offsets
are consulted only when the `tzinfo` objects differ), so the
`end < start` check and the duration use `toNaiveSeconds` directly;
`astimezone` does resolve real instants, so the per-zone conversions
go through `attachInstant`.  In the program the zone list is
validated, so the `from_idx` lookup is modelled with `getD` (Python
would raise `IndexError` out of bounds). -/
def compute_results (tzdb : String → Timezone) (st : AppState) : AppState :=
  let st := { st with
    error := "", results := [], duration_str := "", total_minutes := 0 }
  if st.selected = [] then
    { st with error := "No selected zones. Use settings to add at least one." }
  else
    let from_tz := tzdb (st.selected.getD st.from_idx "")
    match parse_dt st.start_text with
    | none => { st with error := "Bad datetime format for Start. Use YYYY-MM-DD HH:MM." }
    | some sv =>
      match parse_dt st.end_text with
      | none => { st with error := "Bad datetime format for End. Use YYYY-MM-DD HH:MM." }
      | some ev =>
        if toNaiveSeconds ev < toNaiveSeconds sv then
          { st with error := "End earlier than start." }
        else
          let total_minutes := (toNaiveSeconds ev - toNaiveSeconds sv).fdiv 60
          let dur_h := total_minutes.fdiv 60
          let dur_m := total_minutes.emod 60
          { st with
            duration_str := pad2 dur_h ++ ":" ++ pad2 dur_m,
            total_minutes := total_minutes,
            results := st.selected.map fun tz_name =>
              (tz_name,
               astimezoneLocal (tzdb tz_name)
                 (attachInstant from_tz (toNaiveSeconds sv)),
               astimezoneLocal (tzdb tz_name)
                 (attachInstant from_tz (toNaiveSeconds ev))) }

/-! Section: C1 - success path of the conversion engine

The claim asserts the ordering hypothesis and the duration on the
zone-attached instants.  The source gates on and subtracts the naive
wall-clock values (same-`tzinfo` CPython arithmetic), which differs
from the instant arithmetic exactly when the attach offsets of the two
wall times differ (a DST transition between them). -/

/-- A model of America/Los_Angeles around the 2024-11-03 fall-back:
wall times before 02:00 carry PDT (UTC-7, the fold=0 resolution),
later ones PST (UTC-8); the instant offset flips at 09:00 UTC. -/
def laFallBackTz : Timezone :=
  Timezone.mk
    (fun n => if n < toNaiveSeconds (DTV.mk 2024 11 3 2 0) then -25200 else -28800)
    (fun i => if i < toNaiveSeconds (DTV.mk 2024 11 3 9 0) then -25200 else -28800)

def c1TzDb : String → Timezone :=
  fun name => if name = "America/Los_Angeles" then fixedTz (-8 * 3600) else utcTz

def c1State : AppState :=
  { selected := ["UTC", "America/Los_Angeles"], from_idx := 0,
    start_text := "2024-01-01 00:00".data, end_text := "2024-01-01 01:00".data,
    cursor_start := 11, cursor_end := 11, focus_main := 1, from_list_open := false,
    error := "", results := [], duration_str := "", total_minutes := 0,
    settings_selected := [], sel_idx := 0, settings_msg := "", settings_open := false,
    settings_box_mode := "ascii", settings_colors_enabled := false,
    settings_theme := "default", box_mode := "ascii", box_warning := "",
    box_style := "ascii", unicode_supported := false, colors_supported := false,
    colors_enabled := false, colors_warning := "", theme_name := "default",
    persisted := PersistedConfig.mk [] "ascii" false "default" }

def c1xTzDb : String → Timezone := fun _ => laFallBackTz

def c1xState : AppState :=
  { c1State with
    selected := ["America/Los_Angeles"],
    start_text := "2024-11-03 00:30".data,
    end_text := "2024-11-03 02:30".data }

/-- Claim C1 counterexample: from-zone Los Angeles across the fall-back
transition, start `2024-11-03 00:30` (PDT) to end `2024-11-03 02:30`
(PST).  Every hypothesis of the claim holds — non-empty selection, both
texts parse, end instant is not earlier than the start instant after
attaching the from zone — yet the program computes 120 minutes (the
wall-clock difference, CPython same-`tzinfo` subtraction) where the
claim asserts the instant difference, 180 minutes. -/
theorem C1_counterexample_duration_not_instant_diff :
    c1xState.selected ≠ [] ∧
    parse_dt c1xState.start_text = some (DTV.mk 2024 11 3 0 30) ∧
    parse_dt c1xState.end_text = some (DTV.mk 2024 11 3 2 30) ∧
    attachInstant (c1xTzDb (c1xState.selected.getD c1xState.from_idx ""))
        (toNaiveSeconds (DTV.mk 2024 11 3 0 30)) ≤
      attachInstant (c1xTzDb (c1xState.selected.getD c1xState.from_idx ""))
        (toNaiveSeconds (DTV.mk 2024 11 3 2 30)) ∧
    (attachInstant (c1xTzDb (c1xState.selected.getD c1xState.from_idx ""))
        (toNaiveSeconds (DTV.mk 2024 11 3 2 30)) -
      attachInstant (c1xTzDb (c1xState.selected.getD c1xState.from_idx ""))
        (toNaiveSeconds (DTV.mk 2024 11 3 0 30))).fdiv 60 = 180 ∧
    (compute_results c1xTzDb c1xState).total_minutes = 120 ∧
    (compute_results c1xTzDb c1xState).duration_str = "02:00" := by
  decide

/-- Claim C1 amended: For a state with a non-empty selected list whose
start and end texts both parse under the strict `YYYY-MM-DD HH:MM`
grammar and whose end wall-clock value is not earlier than the start
wall-clock value, `compute_results` clears the error, produces exactly
one result per selected zone (the from zone, `selected[from_idx]`,
being one of them), pairing each zone id with that zone's local
conversion of the start and end instants, and sets the duration to the
wall-clock difference `end - start` floored to whole minutes — CPython
compares and subtracts aware datetimes sharing their `tzinfo` by the
naive values, so a DST offset change between the two wall times does
not enter the duration — rendered as `HH:MM` with the hours field
`total_minutes // 60` (no wrap at 24) alongside the total minutes. -/
theorem C1_compute_results_success (tzdb : String → Timezone) (st : AppState)
    (sv ev : DTV)
    (hne : st.selected ≠ [])
    (hs : parse_dt st.start_text = some sv)
    (he : parse_dt st.end_text = some ev)
    (hord : toNaiveSeconds sv ≤ toNaiveSeconds ev) :
    (compute_results tzdb st).error = "" ∧
    (compute_results tzdb st).results =
      st.selected.map (fun tz_name =>
        (tz_name,
         astimezoneLocal (tzdb tz_name)
           (attachInstant (tzdb (st.selected.getD st.from_idx "")) (toNaiveSeconds sv)),
         astimezoneLocal (tzdb tz_name)
           (attachInstant (tzdb (st.selected.getD st.from_idx "")) (toNaiveSeconds ev)))) ∧
    (compute_results tzdb st).results.length = st.selected.length ∧
    (compute_results tzdb st).total_minutes =
      (toNaiveSeconds ev - toNaiveSeconds sv).fdiv 60 ∧
    (compute_results tzdb st).duration_str =
      pad2 ((compute_results tzdb st).total_minutes.fdiv 60) ++ ":" ++
        pad2 ((compute_results tzdb st).total_minutes.emod 60) := by
  have hlt : ¬ (toNaiveSeconds ev < toNaiveSeconds sv) := not_lt.mpr hord
  simp only [compute_results, hne, if_false, hs, he, hlt, ite_false, List.length_map]
  exact ⟨by trivial, by trivial, by trivial, by trivial, by trivial⟩

/-- Witness for the amended C1 at a concrete state (the spec's own
scenario: from UTC, `2024-01-01 00:00` to `2024-01-01 01:00`, with an
UTC-8 second zone; duration `01:00`, 60 minutes). -/
theorem C1_compute_results_success_witness :
    (compute_results c1TzDb c1State).error = "" ∧
    (compute_results c1TzDb c1State).results =
      c1State.selected.map (fun tz_name =>
        (tz_name,
         astimezoneLocal (c1TzDb tz_name)
           (attachInstant (c1TzDb (c1State.selected.getD c1State.from_idx ""))
             (toNaiveSeconds (DTV.mk 2024 1 1 0 0))),
         astimezoneLocal (c1TzDb tz_name)
           (attachInstant (c1TzDb (c1State.selected.getD c1State.from_idx ""))
             (toNaiveSeconds (DTV.mk 2024 1 1 1 0))))) ∧
    (compute_results c1TzDb c1State).results.length = c1State.selected.length ∧
    (compute_results c1TzDb c1State).total_minutes =
      (toNaiveSeconds (DTV.mk 2024 1 1 1 0) -
        toNaiveSeconds (DTV.mk 2024 1 1 0 0)).fdiv 60 ∧
    (compute_results c1TzDb c1State).duration_str =
      pad2 ((compute_results c1TzDb c1State).total_minutes.fdiv 60) ++ ":" ++
        pad2 ((compute_results c1TzDb c1State).total_minutes.emod 60) :=
  C1_compute_results_success c1TzDb c1State (DTV.mk 2024 1 1 0 0) (DTV.mk 2024 1 1 1 0)
    (by decide) (by decide) (by decide) (by decide)

/-- The spec scenario's concrete output: duration `01:00` / 60 minutes,
and the Los Angeles row reads `2023-12-31 16:00` to `17:00` local. -/
example :
    (compute_results c1TzDb c1State).duration_str = "01:00" ∧
    (compute_results c1TzDb c1State).total_minutes = 60 ∧
    (compute_results c1TzDb c1State).results =
      [("UTC", toNaiveSeconds (DTV.mk 2024 1 1 0 0), toNaiveSeconds (DTV.mk 2024 1 1 1 0)),
       ("America/Los_Angeles", toNaiveSeconds (DTV.mk 2023 12 31 16 0),
        toNaiveSeconds (DTV.mk 2023 12 31 17 0))] := by decide

/-! Section: C2 - error reporting of the conversion engine

The parse-failure branches are as the claim states them; the ordering
branch, like the duration, compares the naive wall-clock values, not
the attached instants. -/

/-- A model of Pacific/Apia around the December 2011 day skip: wall
times before 2011-12-31 carry UTC-11, later ones UTC+13; the instant
offset flips at 10:00 UTC on 2011-12-30. -/
def apiaSkipTz : Timezone :=
  Timezone.mk
    (fun n => if n < toNaiveSeconds (DTV.mk 2011 12 31 0 0) then -39600 else 46800)
    (fun i => if i < toNaiveSeconds (DTV.mk 2011 12 30 10 0) then -39600 else 46800)

def c2xTzDb : String → Timezone := fun _ => apiaSkipTz

def c2xState : AppState :=
  { c1State with
    selected := ["Pacific/Apia"],
    start_text := "2011-12-30 23:00".data,
    end_text := "2011-12-31 01:00".data }

/-- Claim C2 counterexample: from-zone Apia across the 2011 day skip,
start `2011-12-30 23:00` (UTC-11) to end `2011-12-31 01:00` (UTC+13).
The end instant is strictly earlier than the start instant after
attachment — the claim's condition for the "End earlier than start."
error with empty results — yet the program compares the wall-clock
values, succeeds, and reports 120 minutes with a result row. -/
theorem C2_counterexample_instant_ordering_not_used :
    c2xState.selected ≠ [] ∧
    parse_dt c2xState.start_text = some (DTV.mk 2011 12 30 23 0) ∧
    parse_dt c2xState.end_text = some (DTV.mk 2011 12 31 1 0) ∧
    attachInstant (c2xTzDb (c2xState.selected.getD c2xState.from_idx ""))
        (toNaiveSeconds (DTV.mk 2011 12 31 1 0)) <
      attachInstant (c2xTzDb (c2xState.selected.getD c2xState.from_idx ""))
        (toNaiveSeconds (DTV.mk 2011 12 30 23 0)) ∧
    (compute_results c2xTzDb c2xState).error = "" ∧
    (compute_results c2xTzDb c2xState).results ≠ [] ∧
    (compute_results c2xTzDb c2xState).total_minutes = 120 := by
  decide

/-- Claim C2 amended: `compute_results` reports malformed input
exclusively through state fields, with empty results (the model is a
total function, so no exception can escape): a failing start parse
records the Start-specific error; otherwise a failing end parse
records the End-specific error; otherwise an end wall-clock value
strictly earlier than the start wall-clock value records
"End earlier than start." — CPython compares aware datetimes sharing
their `tzinfo` by the naive values, so the ordering is on the parsed
wall clocks, not on the resolved instants (and not on the raw text
strings either: the parsed calendar values decide). -/
theorem C2_compute_results_errors (tzdb : String → Timezone) (st : AppState)
    (hne : st.selected ≠ []) :
    (parse_dt st.start_text = none →
      (compute_results tzdb st).error = "Bad datetime format for Start. Use YYYY-MM-DD HH:MM." ∧
      (compute_results tzdb st).results = []) ∧
    (∀ sv, parse_dt st.start_text = some sv → parse_dt st.end_text = none →
      (compute_results tzdb st).error = "Bad datetime format for End. Use YYYY-MM-DD HH:MM." ∧
      (compute_results tzdb st).results = []) ∧
    (∀ sv ev, parse_dt st.start_text = some sv → parse_dt st.end_text = some ev →
      toNaiveSeconds ev < toNaiveSeconds sv →
      (compute_results tzdb st).error = "End earlier than start." ∧
      (compute_results tzdb st).results = []) := by
  refine ⟨fun hs => ?_, fun sv hs he => ?_, fun sv ev hs he hlt => ?_⟩
  · simp only [compute_results, hne, if_false, hs]
    exact ⟨by trivial, by trivial⟩
  · simp only [compute_results, hne, if_false, hs, he]
    exact ⟨by trivial, by trivial⟩
  · simp only [compute_results, hne, if_false, hs, he, hlt, ite_true]
    exact ⟨by trivial, by trivial⟩

def c2State : AppState :=
  { c1State with start_text := "2024-13-01 00:00".data }

theorem C2_compute_results_errors_witness :
    (parse_dt c2State.start_text = none →
      (compute_results c1TzDb c2State).error = "Bad datetime format for Start. Use YYYY-MM-DD HH:MM." ∧
      (compute_results c1TzDb c2State).results = []) ∧
    (∀ sv, parse_dt c2State.start_text = some sv → parse_dt c2State.end_text = none →
      (compute_results c1TzDb c2State).error = "Bad datetime format for End. Use YYYY-MM-DD HH:MM." ∧
      (compute_results c1TzDb c2State).results = []) ∧
    (∀ sv ev, parse_dt c2State.start_text = some sv → parse_dt c2State.end_text = some ev →
      toNaiveSeconds ev < toNaiveSeconds sv →
      (compute_results c1TzDb c2State).error = "End earlier than start." ∧
      (compute_results c1TzDb c2State).results = []) :=
  C2_compute_results_errors c1TzDb c2State (by decide)

/-- The witness state's bad month `13` indeed fails the strict parse and
surfaces the Start error with empty results; and a wall-clock-reversed
pair indeed surfaces the ordering error. -/
example :
    (parse_dt c2State.start_text = none ∧
      (compute_results c1TzDb c2State).error =
        "Bad datetime format for Start. Use YYYY-MM-DD HH:MM." ∧
      (compute_results c1TzDb c2State).results = []) ∧
    ((compute_results c1TzDb
        { c1State with
          start_text := "2024-01-01 02:00".data,
          end_text := "2024-01-01 01:00".data }).error = "End earlier than start.") := by
  decide

/-! Section: Start/End field editing (src/pytzcvrt.py lines 1811-1872)

The Start/End branch of `handle_main_input`: the keys that edit the
focused field.  `strSet` is the Python slice-splice
`text[:pos] + ch + text[pos+1:]`. -/

def strSet (l : List Char) (pos : Nat) (c : Char) : List Char :=
  l.take pos ++ c :: l.drop (pos + 1)

inductive MainKey where
  | enterK
  | leftK
  | rightK
  | homeK
  | endK
  | backspaceK
  | deleteK
  | digitK (d : Fin 10)
deriving DecidableEq, Repr

/-- Write the focused field's text (`state[text_key] = text`). -/
def setFieldText (st : AppState) (t : List Char) : AppState :=
  if st.focus_main = 1 then { st with start_text := t } else { st with end_text := t }

/-- Write the focused field's cursor (`state[cursor_key] = pos`). -/
def setFieldCursor (st : AppState) (c : Nat) : AppState :=
  if st.focus_main = 1 then { st with cursor_start := c } else { st with cursor_end := c }

/-- The `if state["focus_main"] in (1, 2):` editing block of
`handle_main_input`, one constructor per handled key.  Any other focus
falls through unchanged. -/
def handle_main_input_edit (tzdb : String → Timezone) (key : MainKey)
    (st : AppState) : AppState :=
  if st.focus_main = 1 ∨ st.focus_main = 2 then
    let text := if st.focus_main = 1 then st.start_text else st.end_text
    let cursor := if st.focus_main = 1 then st.cursor_start else st.cursor_end
    match key with
    | .enterK =>
      if st.focus_main = 1 then
        { st with focus_main := 2, cursor_end := TIME_FIRST_DIGIT }
      else
        { st with focus_main := 0, from_list_open := false }
    | .leftK => setFieldCursor st (prev_digit_before cursor)
    | .rightK => setFieldCursor st (next_digit_after cursor)
    | .homeK => setFieldCursor st FIRST_DIGIT
    | .endK => setFieldCursor st LAST_DIGIT
    | .backspaceK =>
      let pos := prev_digit_before cursor
      compute_results tzdb (setFieldCursor (setFieldText st (strSet text pos '0')) pos)
    | .deleteK =>
      let pos := if DIGIT_POSITIONS.contains cursor then cursor else next_digit_pos cursor
      compute_results tzdb (setFieldCursor (setFieldText st (strSet text pos '0')) pos)
    | .digitK d =>
      let pos := if DIGIT_POSITIONS.contains cursor then cursor else next_digit_pos cursor
      let st := setFieldText st (strSet text pos (Char.ofNat (48 + d.val)))
      if st.focus_main = 1 ∧ pos = LAST_DIGIT then
        compute_results tzdb { st with focus_main := 2, cursor_end := TIME_FIRST_DIGIT }
      else if st.focus_main = 2 ∧ pos = LAST_DIGIT then
        compute_results tzdb { st with focus_main := 0, from_list_open := false }
      else
        compute_results tzdb (setFieldCursor st (next_digit_after pos))
  else st

/-- Source `compute_results` never touches the field texts, cursors, focus or
the selected list. -/
theorem compute_results_preserves_edit_fields (tzdb : String → Timezone)
    (st : AppState) :
    (compute_results tzdb st).start_text = st.start_text ∧
    (compute_results tzdb st).end_text = st.end_text ∧
    (compute_results tzdb st).cursor_start = st.cursor_start ∧
    (compute_results tzdb st).cursor_end = st.cursor_end ∧
    (compute_results tzdb st).focus_main = st.focus_main ∧
    (compute_results tzdb st).selected = st.selected ∧
    (compute_results tzdb st).from_idx = st.from_idx := by
  unfold compute_results
  dsimp only
  split
  · exact ⟨rfl, rfl, rfl, rfl, rfl, rfl, rfl⟩
  · split
    · exact ⟨rfl, rfl, rfl, rfl, rfl, rfl, rfl⟩
    · split
      · exact ⟨rfl, rfl, rfl, rfl, rfl, rfl, rfl⟩
      · split
        · exact ⟨rfl, rfl, rfl, rfl, rfl, rfl, rfl⟩
        · exact ⟨rfl, rfl, rfl, rfl, rfl, rfl, rfl⟩

/-! Section: Template invariants of the field editor -/

/-- A field text is template-shaped: exactly template length, fixed
separator characters at every non-digit position. -/
def textOK (t : List Char) : Prop :=
  t.length = INPUT_TEMPLATE.length ∧
  ∀ i, i < INPUT_TEMPLATE.length → i ∉ DIGIT_POSITIONS →
    t.getD i ' ' = INPUT_TEMPLATE.data.getD i ' '

/-- A cursor sits on a digit slot. -/
def cursorOK (c : Nat) : Prop := c ∈ DIGIT_POSITIONS

def editInvariant (st : AppState) : Prop :=
  textOK st.start_text ∧ textOK st.end_text ∧
  cursorOK st.cursor_start ∧ cursorOK st.cursor_end

theorem digit_positions_lt : ∀ p ∈ DIGIT_POSITIONS, p < INPUT_TEMPLATE.length := by
  decide

theorem textOK_strSet {t : List Char} {pos : Nat} (c : Char)
    (h : textOK t) (hp : pos ∈ DIGIT_POSITIONS) : textOK (strSet t pos c) := by
  have hlt : pos < t.length := by
    rw [h.1]
    exact digit_positions_lt pos hp
  have hset : strSet t pos c = t.set pos c :=
    (List.set_eq_take_cons_drop c hlt).symm
  constructor
  · rw [hset, List.length_set, h.1]
  · intro i hi hnd
    have hne : pos ≠ i := fun he => hnd (he ▸ hp)
    rw [hset, List.getD_eq_getElem?_getD, List.getElem?_set_ne hne,
      ← List.getD_eq_getElem?_getD]
    exact h.2 i hi hnd

theorem cursorOK_first : cursorOK FIRST_DIGIT := by
  unfold cursorOK
  decide

theorem cursorOK_last : cursorOK LAST_DIGIT := by
  unfold cursorOK
  decide

theorem cursorOK_time_first : cursorOK TIME_FIRST_DIGIT := by
  unfold cursorOK
  decide

theorem cursorOK_snap {c : Nat} (h : cursorOK c) :
    cursorOK (if DIGIT_POSITIONS.contains c then c else next_digit_pos c) := by
  split
  · exact h
  · exact mem_of_next_digit_pos c

theorem editInvariant_setFieldText {st : AppState} {t : List Char}
    (h : editInvariant st) (ht : textOK t) : editInvariant (setFieldText st t) := by
  obtain ⟨h1, h2, h3, h4⟩ := h
  unfold setFieldText
  split
  · exact ⟨ht, h2, h3, h4⟩
  · exact ⟨h1, ht, h3, h4⟩

theorem editInvariant_setFieldCursor {st : AppState} {c : Nat}
    (h : editInvariant st) (hc : cursorOK c) : editInvariant (setFieldCursor st c) := by
  obtain ⟨h1, h2, h3, h4⟩ := h
  unfold setFieldCursor
  split
  · exact ⟨h1, h2, hc, h4⟩
  · exact ⟨h1, h2, h3, hc⟩

theorem editInvariant_compute_results {tzdb : String → Timezone} {st : AppState}
    (h : editInvariant st) : editInvariant (compute_results tzdb st) := by
  obtain ⟨he1, he2, he3, he4, _, _, _⟩ :=
    compute_results_preserves_edit_fields tzdb st
  obtain ⟨h1, h2, h3, h4⟩ := h
  exact ⟨he1 ▸ h1, he2 ▸ h2, he3 ▸ h3, he4 ▸ h4⟩

theorem focused_text_ok {st : AppState} (h : editInvariant st) :
    textOK (if st.focus_main = 1 then st.start_text else st.end_text) := by
  split
  · exact h.1
  · exact h.2.1

theorem focused_cursor_ok {st : AppState} (h : editInvariant st) :
    cursorOK (if st.focus_main = 1 then st.cursor_start else st.cursor_end) := by
  split
  · exact h.2.2.1
  · exact h.2.2.2

/-- The last-digit dispatch after a digit write preserves the invariant. -/
theorem editInvariant_digit_tail (tzdb : String → Timezone) (st2 : AppState)
    (h : editInvariant st2) (pos : Nat) (hpos : cursorOK pos) :
    editInvariant
      (if st2.focus_main = 1 ∧ pos = LAST_DIGIT then
        compute_results tzdb { st2 with focus_main := 2, cursor_end := TIME_FIRST_DIGIT }
      else if st2.focus_main = 2 ∧ pos = LAST_DIGIT then
        compute_results tzdb { st2 with focus_main := 0, from_list_open := false }
      else
        compute_results tzdb (setFieldCursor st2 (next_digit_after pos))) := by
  obtain ⟨h1, h2, h3, h4⟩ := h
  split
  · exact editInvariant_compute_results ⟨h1, h2, h3, cursorOK_time_first⟩
  · split
    · exact editInvariant_compute_results ⟨h1, h2, h3, h4⟩
    · exact editInvariant_compute_results
        (editInvariant_setFieldCursor ⟨h1, h2, h3, h4⟩
          (mem_of_next_digit_after hpos))

/-- Claim C9: Every Start/End editing operation handled by
`handle_main_input` (digit key, Backspace, Delete-forward, Left/Right,
Home/End, and the Enter focus hop) keeps `start_text`/`end_text` exactly
template length with every fixed separator unchanged, and keeps
`cursor_start`/`cursor_end` on one of the template's digit slots. -/
theorem C9_edit_preserves_template_invariant (tzdb : String → Timezone)
    (key : MainKey) (st : AppState) (h : editInvariant st) :
    editInvariant (handle_main_input_edit tzdb key st) := by
  unfold handle_main_input_edit
  split
  case isFalse => exact h
  case isTrue hfocus =>
  have htext := focused_text_ok h
  have hcur := focused_cursor_ok h
  obtain ⟨h1, h2, h3, h4⟩ := h
  cases key with
  | enterK =>
    dsimp only
    split
    · exact ⟨h1, h2, h3, cursorOK_time_first⟩
    · exact ⟨h1, h2, h3, h4⟩
  | leftK =>
    exact editInvariant_setFieldCursor ⟨h1, h2, h3, h4⟩
      (mem_of_prev_digit_before hcur)
  | rightK =>
    exact editInvariant_setFieldCursor ⟨h1, h2, h3, h4⟩
      (mem_of_next_digit_after hcur)
  | homeK => exact editInvariant_setFieldCursor ⟨h1, h2, h3, h4⟩ cursorOK_first
  | endK => exact editInvariant_setFieldCursor ⟨h1, h2, h3, h4⟩ cursorOK_last
  | backspaceK =>
    exact editInvariant_compute_results
      (editInvariant_setFieldCursor
        (editInvariant_setFieldText ⟨h1, h2, h3, h4⟩
          (textOK_strSet _ htext (mem_of_prev_digit_before hcur)))
        (mem_of_prev_digit_before hcur))
  | deleteK =>
    exact editInvariant_compute_results
      (editInvariant_setFieldCursor
        (editInvariant_setFieldText ⟨h1, h2, h3, h4⟩
          (textOK_strSet _ htext (cursorOK_snap hcur)))
        (cursorOK_snap hcur))
  | digitK d =>
    exact editInvariant_digit_tail tzdb _
      (editInvariant_setFieldText ⟨h1, h2, h3, h4⟩
        (textOK_strSet _ htext (cursorOK_snap hcur)))
      _ (cursorOK_snap hcur)

/-- Witness for C9: the invariant holds before and after a Backspace on
the concrete C1 state. -/
theorem C9_edit_preserves_template_invariant_witness :
    editInvariant (handle_main_input_edit c1TzDb MainKey.backspaceK c1State) :=
  C9_edit_preserves_template_invariant c1TzDb MainKey.backspaceK c1State
    (by
      refine ⟨⟨by decide, ?_⟩, ⟨by decide, ?_⟩, by unfold cursorOK; decide,
        by unfold cursorOK; decide⟩ <;>
      · intro i hi hnd
        revert hnd
        revert hi
        revert i
        decide)

/-! Section: C3: Backspace at the first digit slot

The claim says Backspace at `FIRST_DIGIT` is a complete no-op.  The
code computes `pos = prev_digit_before(cursor) = FIRST_DIGIT` and still
executes `text = text[:pos] + "0" + text[pos+1:]`, so the character at
the first digit slot is overwritten with `'0'`; only the cursor stays. -/

def c3State : AppState :=
  { c1State with start_text := "1234-05-06 07:08".data, cursor_start := 0 }

/-- Claim C3 counterexample: At a concrete state focused on Start with the
cursor at the first digit slot and a non-zero leading digit, Backspace
changes the field text (so it is not a complete no-op), even though the
cursor does stay at `FIRST_DIGIT`. -/
theorem C3_counterexample_backspace_not_noop :
    c3State.focus_main = 1 ∧
    c3State.cursor_start = FIRST_DIGIT ∧
    (handle_main_input_edit c1TzDb MainKey.backspaceK c3State).cursor_start =
      FIRST_DIGIT ∧
    (handle_main_input_edit c1TzDb MainKey.backspaceK c3State).start_text ≠
      c3State.start_text := by
  decide

/-- Claim C3 amended: Backspace with the cursor at the first digit slot
keeps the cursor at `FIRST_DIGIT` but overwrites the first digit slot
with `'0'`, leaving every other character unchanged (the text is
unchanged only when that slot already holds `'0'`); the other field is
untouched.  Stated for both the Start and the End field. -/
theorem C3_backspace_first_digit_overwrites (tzdb : String → Timezone)
    (st : AppState) :
    (st.focus_main = 1 → st.cursor_start = FIRST_DIGIT →
      (handle_main_input_edit tzdb MainKey.backspaceK st).cursor_start = FIRST_DIGIT ∧
      (handle_main_input_edit tzdb MainKey.backspaceK st).start_text =
        strSet st.start_text FIRST_DIGIT '0' ∧
      (handle_main_input_edit tzdb MainKey.backspaceK st).end_text = st.end_text) ∧
    (st.focus_main = 2 → st.cursor_end = FIRST_DIGIT →
      (handle_main_input_edit tzdb MainKey.backspaceK st).cursor_end = FIRST_DIGIT ∧
      (handle_main_input_edit tzdb MainKey.backspaceK st).end_text =
        strSet st.end_text FIRST_DIGIT '0' ∧
      (handle_main_input_edit tzdb MainKey.backspaceK st).start_text = st.start_text) := by
  have hprev : prev_digit_before FIRST_DIGIT = FIRST_DIGIT := by decide
  constructor
  · intro hf hc
    have hor : st.focus_main = 1 ∨ st.focus_main = 2 := Or.inl hf
    simp only [handle_main_input_edit, hf, hc, hprev, setFieldText, setFieldCursor]
    norm_num
    simp only [hprev]
    refine ⟨?_, ?_, ?_⟩
    · rw [(compute_results_preserves_edit_fields tzdb _).2.2.1]
    · rw [(compute_results_preserves_edit_fields tzdb _).1]
    · rw [(compute_results_preserves_edit_fields tzdb _).2.1]
  · intro hf hc
    have hor : st.focus_main = 1 ∨ st.focus_main = 2 := Or.inr hf
    have hne : ¬ st.focus_main = 1 := by
      rw [hf]
      decide
    simp only [handle_main_input_edit, hf, hc, hprev, setFieldText, setFieldCursor]
    norm_num
    simp only [hprev]
    refine ⟨?_, ?_, ?_⟩
    · rw [(compute_results_preserves_edit_fields tzdb _).2.2.2.1]
    · rw [(compute_results_preserves_edit_fields tzdb _).2.1]
    · rw [(compute_results_preserves_edit_fields tzdb _).1]

/-- Witness for the amended C3 at a concrete state (Start field, leading
digit `'1'` becomes `'0'`). -/
theorem C3_backspace_first_digit_overwrites_witness :
    (c3State.focus_main = 1 → c3State.cursor_start = FIRST_DIGIT →
      (handle_main_input_edit c1TzDb MainKey.backspaceK c3State).cursor_start = FIRST_DIGIT ∧
      (handle_main_input_edit c1TzDb MainKey.backspaceK c3State).start_text =
        strSet c3State.start_text FIRST_DIGIT '0' ∧
      (handle_main_input_edit c1TzDb MainKey.backspaceK c3State).end_text = c3State.end_text) ∧
    (c3State.focus_main = 2 → c3State.cursor_end = FIRST_DIGIT →
      (handle_main_input_edit c1TzDb MainKey.backspaceK c3State).cursor_end = FIRST_DIGIT ∧
      (handle_main_input_edit c1TzDb MainKey.backspaceK c3State).end_text =
        strSet c3State.end_text FIRST_DIGIT '0' ∧
      (handle_main_input_edit c1TzDb MainKey.backspaceK c3State).start_text = c3State.start_text) :=
  C3_backspace_first_digit_overwrites c1TzDb c3State

/-- The overwrite concretely: `"1234-..."` becomes `"0234-..."`. -/
example :
    (handle_main_input_edit c1TzDb MainKey.backspaceK c3State).start_text =
      "0234-05-06 07:08".data := by
  decide

/-! Section: Region router (src/pytzcvrt.py lines 618-640)

A region is the tuple `(y1, x1, y2, x2, action, payload)`; the payload
type is abstract. -/

structure Region (α : Type) where
  y1 : Int
  x1 : Int
  y2 : Int
  x2 : Int
  action : String
  payload : Option α
deriving DecidableEq, Repr

/-- Source `add_region`: silently drop degenerate rectangles, else append. -/
def add_region {α : Type} (regions : List (Region α))
    (y1 x1 y2 x2 : Int) (action : String) (payload : Option α) : List (Region α) :=
  if x2 < x1 ∨ y2 < y1 then regions
  else regions ++ [Region.mk y1 x1 y2 x2 action payload]

/-- Source `y1 <= y <= y2 and x1 <= x <= x2`. -/
def regionContains {α : Type} (r : Region α) (x y : Int) : Bool :=
  r.y1 ≤ y ∧ y ≤ r.y2 ∧ r.x1 ≤ x ∧ x ≤ r.x2

/-- Source `region_hit`: scan in reverse registration order, return the first
hit's action and payload. -/
def region_hit {α : Type} (regions : List (Region α)) (x y : Int) :
    Option (String × Option α) :=
  (regions.reverse.find? (fun r => regionContains r x y)).map
    (fun r => (r.action, r.payload))

theorem reverse_find?_eq_filter_getLast? {α : Type} (p : α → Bool) (l : List α) :
    l.reverse.find? p = (l.filter p).getLast? := by
  rw [← List.filter_head? p l.reverse, List.filter_reverse, List.head?_reverse]

/-- Claim C4: `add_region` silently drops every degenerate rectangle
(`x2 < x1` or `y2 < y1`), leaving the list unchanged, and appends any
other rectangle; `region_hit` returns the action and payload of the
most recently registered rectangle containing the point (none when no
rectangle contains it); consequently, whenever two registered regions
both contain the point and nothing registered after the later of them
contains it, the later-registered one is returned, regardless of the
regions' content. -/
theorem C4_region_router {α : Type} (regions pre post : List (Region α))
    (y1 x1 y2 x2 : Int) (action : String) (payload : Option α)
    (x y : Int) (r1 r2 : Region α) :
    (x2 < x1 ∨ y2 < y1 →
      add_region regions y1 x1 y2 x2 action payload = regions) ∧
    (¬ (x2 < x1 ∨ y2 < y1) →
      add_region regions y1 x1 y2 x2 action payload =
        regions ++ [Region.mk y1 x1 y2 x2 action payload]) ∧
    (region_hit regions x y =
      ((regions.filter (fun r => regionContains r x y)).getLast?).map
        (fun r => (r.action, r.payload))) ∧
    (r1 ∈ pre → regionContains r1 x y → regionContains r2 x y →
      (∀ r ∈ post, ¬ regionContains r x y) →
      region_hit (pre ++ r2 :: post) x y = some (r2.action, r2.payload)) := by
  refine ⟨fun hdeg => ?_, fun hdeg => ?_, ?_, fun hmem h1 h2 hpost => ?_⟩
  · unfold add_region
    rw [if_pos hdeg]
  · unfold add_region
    rw [if_neg hdeg]
  · unfold region_hit
    rw [reverse_find?_eq_filter_getLast?]
  · unfold region_hit
    rw [List.reverse_append, List.find?_append]
    have hpostnone : (r2 :: post).reverse.find? (fun r => regionContains r x y) =
        some r2 := by
      rw [reverse_find?_eq_filter_getLast?, List.filter_cons, if_pos h2]
      have : post.filter (fun r => regionContains r x y) = [] := by
        rw [List.filter_eq_nil_iff]
        intro r hr
        exact fun hc => hpost r hr hc
      rw [this]
      rfl
    rw [hpostnone]
    rfl

/-- Witness for C4 at concrete regions: a degenerate rectangle is
dropped, and of two overlapping regions the later one wins. -/
theorem C4_region_router_witness :
    (((-1 : Int) < 0 ∨ (5 : Int) < 0) →
      add_region [Region.mk 0 0 5 5 "base" (some "p0")] 0 0 5 (-1) "bad" none =
        [Region.mk 0 0 5 5 "base" (some "p0")]) ∧
    (¬ (((-1) : Int) < 0 ∨ (5 : Int) < 0) →
      add_region [Region.mk 0 0 5 5 "base" (some "p0")] 0 0 5 (-1) "bad" none =
        [Region.mk 0 0 5 5 "base" (some "p0")] ++ [Region.mk 0 0 5 (-1) "bad" none]) ∧
    (region_hit [Region.mk 0 0 5 5 "base" (some "p0")] 2 2 =
      (([Region.mk 0 0 5 5 "base" (some "p0")].filter
          (fun r => regionContains r 2 2)).getLast?).map
        (fun r => (r.action, r.payload))) ∧
    (Region.mk 0 0 5 5 "base" (some "p0") ∈ [Region.mk 0 0 5 5 "base" (some "p0")] →
      regionContains (Region.mk 0 0 5 5 "base" (some "p0")) 2 2 →
      regionContains (Region.mk 1 1 3 3 "dropdown" (some "p1")) 2 2 →
      (∀ r ∈ ([] : List (Region String)), ¬ regionContains r 2 2) →
      region_hit ([Region.mk 0 0 5 5 "base" (some "p0")] ++
          Region.mk 1 1 3 3 "dropdown" (some "p1") :: []) 2 2 =
        some ("dropdown", some "p1")) :=
  C4_region_router [Region.mk 0 0 5 5 "base" (some "p0")]
    [Region.mk 0 0 5 5 "base" (some "p0")] []
    0 0 5 (-1) "bad" none 2 2
    (Region.mk 0 0 5 5 "base" (some "p0")) (Region.mk 1 1 3 3 "dropdown" (some "p1"))

/-- The overlap scenario evaluated concretely: the later-registered
dropdown region wins the hit-test. -/
example :
    region_hit [Region.mk 0 0 5 5 "base" (some "p0"),
      Region.mk 1 1 3 3 "dropdown" (some "p1")] 2 2 =
      some ("dropdown", some "p1") ∧
    region_hit [Region.mk 0 0 5 5 "base" (some "p0"),
      Region.mk 1 1 3 3 "dropdown" (some "p1")] 100 100 = none ∧
    add_region [Region.mk 0 0 5 5 "base" (some ("p0" : String))] 0 0 5 (-1) "bad" none =
      [Region.mk 0 0 5 5 "base" (some "p0")] := by
  refine ⟨by decide, by decide, by decide⟩

/-! Section: Settings actions (src/pytzcvrt.py lines 849-857, 881-889, 1619-1627, 1671-1687)

`save_config` is the persistence collaborator; its observable effect is
the record written, modelled as the `persisted` field.
`setup_theme_colors` only allocates curses color pairs and is omitted. -/

def THEME_NAMES : List String := ["default", "high_contrast", "hacker_green_black"]

/-- Source `apply_box_mode(state, desired)`; `box_style` holds the key into
`BOX_STYLES`. -/
def apply_box_mode (st : AppState) (desired : String) : AppState :=
  let st :=
    if desired = "unicode" ∧ ¬ st.unicode_supported then
      { st with
        box_mode := "ascii",
        box_warning := "Unicode box drawing not supported; using ASCII." }
    else
      { st with
        box_mode := desired,
        box_warning := "" }
  { st with box_style := st.box_mode }

/-- Source `apply_color_settings(state, enabled, theme_name)`. -/
def apply_color_settings (st : AppState) (enabled : Bool) (theme_name : String) :
    AppState :=
  let st :=
    { st with
      theme_name := if THEME_NAMES.contains theme_name then theme_name else "default" }
  if ¬ st.colors_supported then
    { st with
      colors_enabled := false,
      colors_warning := "Colors unsupported" }
  else
    { st with
      colors_enabled := enabled,
      colors_warning := "" }

/-- Source `save_config(selected, box_mode, colors_enabled, theme_name)`. -/
def save_config (st : AppState) : AppState :=
  { st with
    persisted :=
      PersistedConfig.mk st.selected st.box_mode st.colors_enabled st.theme_name }

/-- Source `settings_remove` (src/pytzcvrt.py lines 1619-1627). -/
def settings_remove (st : AppState) : AppState :=
  if st.settings_selected.length ≤ 1 then
    { st with settings_msg := "At least one zone must remain." }
  else if st.settings_selected = [] then st
  else
    let name := st.settings_selected.getD st.sel_idx ""
    let remaining := st.settings_selected.eraseIdx st.sel_idx
    { st with
      settings_selected := remaining,
      sel_idx := max 0 (min st.sel_idx (remaining.length - 1)),
      settings_msg := "Removed " ++ name ++ "." }

/-- Source `save_settings` (src/pytzcvrt.py lines 1671-1687); returns the bool
the Python function returns. -/
def save_settings (tzdb : String → Timezone) (st : AppState) : AppState × Bool :=
  if st.settings_selected = [] then
    ({ st with settings_msg := "Select at least one zone before saving." }, false)
  else
    let st := { st with selected := st.settings_selected }
    let st := { st with from_idx := min st.from_idx (st.selected.length - 1) }
    let st := apply_box_mode st st.settings_box_mode
    let st := apply_color_settings st st.settings_colors_enabled st.settings_theme
    let st := save_config st
    let st :=
      { st with
        settings_open := false,
        from_list_open := false }
    (compute_results tzdb st, true)

/-- Claim C7: The settings working zone list can never be emptied, and the
rejecting operations leave state unchanged: `settings_remove` on a
working list of length ≤ 1 records "At least one zone must remain." and
leaves the working list and selection index unchanged; `save_settings`
on an empty working list returns `false` and leaves the committed
selected list, the persisted config and the settings-open mode
untouched. -/
theorem C7_settings_reject_empty (tzdb : String → Timezone) (st : AppState) :
    (st.settings_selected.length ≤ 1 →
      (settings_remove st).settings_msg = "At least one zone must remain." ∧
      (settings_remove st).settings_selected = st.settings_selected ∧
      (settings_remove st).sel_idx = st.sel_idx ∧
      (settings_remove st).selected = st.selected) ∧
    (st.settings_selected = [] →
      (save_settings tzdb st).2 = false ∧
      (save_settings tzdb st).1.selected = st.selected ∧
      (save_settings tzdb st).1.persisted = st.persisted ∧
      (save_settings tzdb st).1.settings_open = st.settings_open ∧
      (save_settings tzdb st).1.settings_msg =
        "Select at least one zone before saving.") := by
  constructor
  · intro hlen
    unfold settings_remove
    rw [if_pos hlen]
    exact ⟨rfl, rfl, rfl, rfl⟩
  · intro hempty
    unfold save_settings
    rw [if_pos hempty]
    exact ⟨rfl, rfl, rfl, rfl, rfl⟩

def c7State : AppState :=
  { c1State with
    settings_selected := ["UTC"],
    sel_idx := 0,
    settings_open := true }

def c7StateEmpty : AppState :=
  { c1State with
    settings_selected := [],
    settings_open := true }

theorem C7_settings_reject_empty_witness :
    ((c7State.settings_selected.length ≤ 1 →
      (settings_remove c7State).settings_msg = "At least one zone must remain." ∧
      (settings_remove c7State).settings_selected = c7State.settings_selected ∧
      (settings_remove c7State).sel_idx = c7State.sel_idx ∧
      (settings_remove c7State).selected = c7State.selected) ∧
    (c7State.settings_selected = [] →
      (save_settings c1TzDb c7State).2 = false ∧
      (save_settings c1TzDb c7State).1.selected = c7State.selected ∧
      (save_settings c1TzDb c7State).1.persisted = c7State.persisted ∧
      (save_settings c1TzDb c7State).1.settings_open = c7State.settings_open ∧
      (save_settings c1TzDb c7State).1.settings_msg =
        "Select at least one zone before saving.")) ∧
    ((c7StateEmpty.settings_selected.length ≤ 1 →
      (settings_remove c7StateEmpty).settings_msg = "At least one zone must remain." ∧
      (settings_remove c7StateEmpty).settings_selected = c7StateEmpty.settings_selected ∧
      (settings_remove c7StateEmpty).sel_idx = c7StateEmpty.sel_idx ∧
      (settings_remove c7StateEmpty).selected = c7StateEmpty.selected) ∧
    (c7StateEmpty.settings_selected = [] →
      (save_settings c1TzDb c7StateEmpty).2 = false ∧
      (save_settings c1TzDb c7StateEmpty).1.selected = c7StateEmpty.selected ∧
      (save_settings c1TzDb c7StateEmpty).1.persisted = c7StateEmpty.persisted ∧
      (save_settings c1TzDb c7StateEmpty).1.settings_open = c7StateEmpty.settings_open ∧
      (save_settings c1TzDb c7StateEmpty).1.settings_msg =
        "Select at least one zone before saving.")) :=
  ⟨C7_settings_reject_empty c1TzDb c7State, C7_settings_reject_empty c1TzDb c7StateEmpty⟩

theorem apply_box_mode_keeps (st : AppState) (d : String) :
    (apply_box_mode st d).selected = st.selected ∧
    (apply_box_mode st d).from_idx = st.from_idx := by
  unfold apply_box_mode
  split
  · exact ⟨rfl, rfl⟩
  · exact ⟨rfl, rfl⟩

theorem apply_color_settings_keeps (st : AppState) (e : Bool) (t : String) :
    (apply_color_settings st e t).selected = st.selected ∧
    (apply_color_settings st e t).from_idx = st.from_idx := by
  unfold apply_color_settings
  dsimp only
  split
  · exact ⟨rfl, rfl⟩
  · exact ⟨rfl, rfl⟩

/-- Claim C10: A successful `save_settings` (non-empty working list,
returns `true`) commits the working list and clamps `from_idx` to
`min(from_idx, len(selected) - 1)` before results are recomputed, so
the from-zone index is always in bounds for the committed list. -/
theorem C10_save_settings_clamps_from_idx (tzdb : String → Timezone)
    (st : AppState) (hne : st.settings_selected ≠ []) :
    (save_settings tzdb st).2 = true ∧
    (save_settings tzdb st).1.selected = st.settings_selected ∧
    (save_settings tzdb st).1.from_idx =
      min st.from_idx (st.settings_selected.length - 1) ∧
    (save_settings tzdb st).1.from_idx < (save_settings tzdb st).1.selected.length := by
  unfold save_settings
  rw [if_neg hne]
  have hsel : ∀ st2 : AppState,
      (compute_results tzdb st2).selected = st2.selected :=
    fun st2 => (compute_results_preserves_edit_fields tzdb st2).2.2.2.2.2.1
  have hidx : ∀ st2 : AppState,
      (compute_results tzdb st2).from_idx = st2.from_idx :=
    fun st2 => (compute_results_preserves_edit_fields tzdb st2).2.2.2.2.2.2
  dsimp only
  rw [hsel, hidx]
  dsimp only [save_config]
  rw [(apply_color_settings_keeps _ _ _).1, (apply_color_settings_keeps _ _ _).2,
    (apply_box_mode_keeps _ _).1, (apply_box_mode_keeps _ _).2]
  refine ⟨rfl, rfl, rfl, ?_⟩
  have hpos : 0 < st.settings_selected.length := List.length_pos.mpr hne
  have hlt : st.settings_selected.length - 1 < st.settings_selected.length :=
    Nat.sub_lt hpos Nat.one_pos
  exact lt_of_le_of_lt (min_le_right _ _) hlt

theorem C10_save_settings_clamps_from_idx_witness :
    (save_settings c1TzDb c7State).2 = true ∧
    (save_settings c1TzDb c7State).1.selected = c7State.settings_selected ∧
    (save_settings c1TzDb c7State).1.from_idx =
      min c7State.from_idx (c7State.settings_selected.length - 1) ∧
    (save_settings c1TzDb c7State).1.from_idx <
      (save_settings c1TzDb c7State).1.selected.length :=
  C10_save_settings_clamps_from_idx c1TzDb c7State (by decide)

/-! Section: Country-view rows and selectable navigation (src/pytzcvrt.py 176-184, 505-513)

`Row` mirrors the dataclass.  `next_selectable_index` is a `while` loop
stepping by `direction`; it is modelled with explicit fuel
`len(rows) + 1`, which is enough for the directions the program uses
(`1` and `-1`, proved below).  For `direction = 0` on a header row the
Python loop would not terminate; the model then returns the loop's
fallback value. -/

structure Row where
  kind : String
  label : String
  tz_id : Option String
  is_alias : Bool
  alias_target : Option String
  country_name : Option String
  country_code : Option String
deriving DecidableEq, Repr

def blankRow : Row := Row.mk "" "" none false none none none

def rowKindAt (rows : List Row) (j : Nat) : String := (rows.getD j blankRow).kind

def nsiAux (rows : List Row) (direction : Int) : Int → Nat → Option Int
  | _, 0 => none
  | idx, fuel + 1 =>
    if 0 ≤ idx ∧ idx < (rows.length : Int) then
      if rowKindAt rows idx.toNat = "tz" then some idx
      else nsiAux rows direction (idx + direction) fuel
    else none

/-- Source `next_selectable_index(rows, start_idx, direction)`. -/
def next_selectable_index (rows : List Row) (start_idx direction : Int) : Int :=
  if rows = [] then 0
  else
    match nsiAux rows direction
        (max 0 (min start_idx ((rows.length : Int) - 1))) (rows.length + 1) with
    | some i => i
    | none => max 0 (min start_idx ((rows.length : Int) - 1))

/-- The clamp `max(0, min(start_idx, len(rows)-1))`, as a `Nat`. -/
def clamp_start (rows : List Row) (start_idx : Int) : Nat :=
  (max 0 (min start_idx ((rows.length : Int) - 1))).toNat

theorem clamp_start_eq (rows : List Row) (start_idx : Int) :
    max 0 (min start_idx ((rows.length : Int) - 1)) =
      ((clamp_start rows start_idx : Nat) : Int) :=
  (Int.toNat_of_nonneg (le_max_left 0 _)).symm

theorem clamp_start_lt (rows : List Row) (start_idx : Int) (hne : rows ≠ []) :
    clamp_start rows start_idx < rows.length := by
  have hlen : 0 < rows.length := List.length_pos.mpr hne
  have hle : max 0 (min start_idx ((rows.length : Int) - 1)) ≤ (rows.length : Int) - 1 := by
    apply max_le
    · omega
    · exact min_le_right _ _
  have := Int.toNat_le_toNat hle
  unfold clamp_start
  omega

theorem nsiAux_out (rows : List Row) (d : Int) (i : Int) (f : Nat)
    (h : ¬ (0 ≤ i ∧ i < (rows.length : Int))) : nsiAux rows d i f = none := by
  cases f with
  | zero => rfl
  | succ f =>
    unfold nsiAux
    rw [if_neg h]

theorem nsiAux_up_found (rows : List Row) (j : Nat) (hj : j < rows.length)
    (htz : rowKindAt rows j = "tz") :
    ∀ fuel idx : Nat, idx ≤ j →
      (∀ k : Nat, idx ≤ k → k < j → rowKindAt rows k ≠ "tz") →
      rows.length + 1 - idx ≤ fuel →
      nsiAux rows 1 (idx : Int) fuel = some (j : Int) := by
  intro fuel
  induction fuel with
  | zero =>
    intro idx hle hmin hfuel
    omega
  | succ f ih =>
    intro idx hle hmin hfuel
    unfold nsiAux
    have hin : (0 : Int) ≤ (idx : Int) ∧ (idx : Int) < (rows.length : Int) := by
      constructor <;> omega
    rw [if_pos hin, Int.toNat_natCast]
    by_cases hij : idx = j
    · subst hij
      rw [if_pos htz]
    · have hne : rowKindAt rows idx ≠ "tz" :=
        hmin idx le_rfl (lt_of_le_of_ne hle hij)
      rw [if_neg hne]
      have hcast : (idx : Int) + 1 = ((idx + 1 : Nat) : Int) := by push_cast; ring
      rw [hcast]
      exact ih (idx + 1) (by omega) (fun k hk1 hk2 => hmin k (by omega) hk2) (by omega)

theorem nsiAux_up_none (rows : List Row) :
    ∀ fuel idx : Nat,
      (∀ k : Nat, idx ≤ k → k < rows.length → rowKindAt rows k ≠ "tz") →
      rows.length + 1 - idx ≤ fuel →
      nsiAux rows 1 (idx : Int) fuel = none := by
  intro fuel
  induction fuel with
  | zero =>
    intro idx hnone hfuel
    rfl
  | succ f ih =>
    intro idx hnone hfuel
    unfold nsiAux
    by_cases hin : (0 : Int) ≤ (idx : Int) ∧ (idx : Int) < (rows.length : Int)
    · rw [if_pos hin, Int.toNat_natCast]
      have hidx : idx < rows.length := by omega
      rw [if_neg (hnone idx le_rfl hidx)]
      have hcast : (idx : Int) + 1 = ((idx + 1 : Nat) : Int) := by push_cast; ring
      rw [hcast]
      exact ih (idx + 1) (fun k hk1 hk2 => hnone k (by omega) hk2) (by omega)
    · rw [if_neg hin]

theorem nsiAux_down_found (rows : List Row) (j : Nat) (hj : j < rows.length)
    (htz : rowKindAt rows j = "tz") :
    ∀ fuel idx : Nat, j ≤ idx → idx < rows.length →
      (∀ k : Nat, j < k → k ≤ idx → rowKindAt rows k ≠ "tz") →
      idx + 2 ≤ fuel →
      nsiAux rows (-1) (idx : Int) fuel = some (j : Int) := by
  intro fuel
  induction fuel with
  | zero =>
    intro idx hge hlt hmax hfuel
    omega
  | succ f ih =>
    intro idx hge hlt hmax hfuel
    unfold nsiAux
    have hin : (0 : Int) ≤ (idx : Int) ∧ (idx : Int) < (rows.length : Int) := by
      constructor <;> omega
    rw [if_pos hin, Int.toNat_natCast]
    by_cases hij : idx = j
    · subst hij
      rw [if_pos htz]
    · have hj1 : j < idx := lt_of_le_of_ne hge (fun h => hij h.symm)
      have hne : rowKindAt rows idx ≠ "tz" := hmax idx hj1 le_rfl
      rw [if_neg hne]
      have hcast : (idx : Int) + (-1) = ((idx - 1 : Nat) : Int) := by omega
      rw [hcast]
      exact ih (idx - 1) (by omega) (by omega)
        (fun k hk1 hk2 => hmax k hk1 (by omega)) (by omega)

theorem nsiAux_down_none (rows : List Row) :
    ∀ fuel idx : Nat, idx < rows.length →
      (∀ k : Nat, k ≤ idx → rowKindAt rows k ≠ "tz") →
      idx + 2 ≤ fuel →
      nsiAux rows (-1) (idx : Int) fuel = none := by
  intro fuel
  induction fuel with
  | zero =>
    intro idx hlt hnone hfuel
    rfl
  | succ f ih =>
    intro idx hlt hnone hfuel
    unfold nsiAux
    have hin : (0 : Int) ≤ (idx : Int) ∧ (idx : Int) < (rows.length : Int) := by
      constructor <;> omega
    rw [if_pos hin, Int.toNat_natCast, if_neg (hnone idx le_rfl)]
    cases idx with
    | zero =>
      apply nsiAux_out
      omega
    | succ i =>
      have hcast : ((i + 1 : Nat) : Int) + (-1) = ((i : Nat) : Int) := by omega
      rw [hcast]
      exact ih i (by omega) (fun k hk => hnone k (by omega)) (by omega)

def c8Rows : List Row :=
  [Row.mk "tz" "  UTC" (some "UTC") false none (some "X") (some "XX"),
   Row.mk "header" "Sweden (SE)" none false none (some "Sweden") (some "SE")]

/-- Claim C8 counterexample: With rows `[tz, header]`, start index 1 and
direction `+1` there is no tz row at or after the start, yet
`next_selectable_index` returns index 1 — a header row — rather than
saturating at the list's only selectable row (index 0).  So the claim's
"saturates at the first/last selectable row" and "never designates a
header row" both fail. -/
theorem C8_counterexample_header_returned :
    next_selectable_index c8Rows 1 1 = 1 ∧
    rowKindAt c8Rows 1 = "header" ∧
    rowKindAt c8Rows 0 = "tz" := by
  refine ⟨?_, by decide, by decide⟩
  decide

/-- Claim C8 amended: For a non-empty row list and either direction
`±1`, `next_selectable_index` returns the index of the nearest tz
(non-header) row at or beyond the clamped start index in the requested
direction, skipping header rows; when no tz row exists in that
direction it returns the clamped start index itself, which may be a
header row. -/
theorem C8_next_selectable_index_nearest (rows : List Row) (start_idx : Int)
    (hne : rows ≠ []) :
    (∀ j : Nat, j < rows.length → clamp_start rows start_idx ≤ j →
      rowKindAt rows j = "tz" →
      (∀ k : Nat, clamp_start rows start_idx ≤ k → k < j → rowKindAt rows k ≠ "tz") →
      next_selectable_index rows start_idx 1 = (j : Int)) ∧
    ((∀ k : Nat, clamp_start rows start_idx ≤ k → k < rows.length →
        rowKindAt rows k ≠ "tz") →
      next_selectable_index rows start_idx 1 = (clamp_start rows start_idx : Int)) ∧
    (∀ j : Nat, j ≤ clamp_start rows start_idx → rowKindAt rows j = "tz" →
      (∀ k : Nat, j < k → k ≤ clamp_start rows start_idx → rowKindAt rows k ≠ "tz") →
      next_selectable_index rows start_idx (-1) = (j : Int)) ∧
    ((∀ k : Nat, k ≤ clamp_start rows start_idx → rowKindAt rows k ≠ "tz") →
      next_selectable_index rows start_idx (-1) = (clamp_start rows start_idx : Int)) := by
  have hclt : clamp_start rows start_idx < rows.length := clamp_start_lt rows start_idx hne
  refine ⟨fun j hj hcj htz hmin => ?_, fun hnone => ?_, fun j hcj htz hmax => ?_,
    fun hnone => ?_⟩
  · unfold next_selectable_index
    rw [if_neg hne, clamp_start_eq,
      nsiAux_up_found rows j hj htz (rows.length + 1) (clamp_start rows start_idx)
        hcj hmin (by omega)]
  · unfold next_selectable_index
    rw [if_neg hne, clamp_start_eq,
      nsiAux_up_none rows (rows.length + 1) (clamp_start rows start_idx)
        hnone (by omega)]
  · unfold next_selectable_index
    rw [if_neg hne, clamp_start_eq,
      nsiAux_down_found rows j (lt_of_le_of_lt hcj hclt) htz (rows.length + 1)
        (clamp_start rows start_idx) hcj hclt hmax (by omega)]
  · unfold next_selectable_index
    rw [if_neg hne, clamp_start_eq,
      nsiAux_down_none rows (rows.length + 1) (clamp_start rows start_idx)
        hclt hnone (by omega)]

/-- Witness for the amended C8 at the concrete `[tz, header]` rows with
start index 1: upward there is no tz row, so the clamped start (a
header) comes back; downward the tz row at 0 is found. -/
theorem C8_next_selectable_index_nearest_witness :
    (∀ j : Nat, j < c8Rows.length → clamp_start c8Rows 1 ≤ j →
      rowKindAt c8Rows j = "tz" →
      (∀ k : Nat, clamp_start c8Rows 1 ≤ k → k < j → rowKindAt c8Rows k ≠ "tz") →
      next_selectable_index c8Rows 1 1 = (j : Int)) ∧
    ((∀ k : Nat, clamp_start c8Rows 1 ≤ k → k < c8Rows.length →
        rowKindAt c8Rows k ≠ "tz") →
      next_selectable_index c8Rows 1 1 = (clamp_start c8Rows 1 : Int)) ∧
    (∀ j : Nat, j ≤ clamp_start c8Rows 1 → rowKindAt c8Rows j = "tz" →
      (∀ k : Nat, j < k → k ≤ clamp_start c8Rows 1 → rowKindAt c8Rows k ≠ "tz") →
      next_selectable_index c8Rows 1 (-1) = (j : Int)) ∧
    ((∀ k : Nat, k ≤ clamp_start c8Rows 1 → rowKindAt c8Rows k ≠ "tz") →
      next_selectable_index c8Rows 1 (-1) = (clamp_start c8Rows 1 : Int)) :=
  C8_next_selectable_index_nearest c8Rows 1 (by decide)

/-- Concretely: downward navigation from the header lands on the tz row. -/
example : next_selectable_index c8Rows 1 (-1) = 0 := by decide

/-! Section: Country grouping and alias inference (src/pytzcvrt.py lines 387-454)

The model embeds `load_country_timezones` from the point where the
tzdata tables have been parsed: `cl` is the `canonical_lists` dict (an
insertion-ordered association list from `(country_name, country_code)`
to the sorted canonical zone ids), `all_zones` the runtime database's
id set, and the filesystem is abstracted exactly at the program's own
boundary: `resolve tz` is the real path of `ZONEINFO_DIR/tz` (`none`
models a missing path or a failing `resolve()`), `is_link tz` is
`Path.is_symlink()`, and `dirExists` is `zoneinfo_dir.exists()`.
Python dicts are association lists with unique keys (assignment
replaces in place, `setdefault` appends); `sorted` is modelled by a
structurally recursive insertion sort, which agrees with Python's
stable sort because every sort key involved is distinct. -/

structure ZoneEntry where
  tz_id : String
  is_alias : Bool
  alias_target : Option String
deriving DecidableEq, Repr

abbrev CKey := String × String

def insertSorted {α : Type} (le : α → α → Bool) (a : α) : List α → List α
  | [] => [a]
  | b :: l => if le a b then a :: b :: l else b :: insertSorted le a l

def sortBy {α : Type} (le : α → α → Bool) : List α → List α
  | [] => []
  | a :: l => insertSorted le a (sortBy le l)

/-- Lexicographic code-point order on strings, the order Python's
string comparison (and hence `sorted`) uses. -/
def charListLe : List Char → List Char → Bool
  | [], _ => true
  | _ :: _, [] => false
  | a :: as, b :: bs => if a < b then true else if b < a then false else charListLe as bs

def strLeB (a b : String) : Bool := charListLe a.data b.data

def sortStr (l : List String) : List String := sortBy strLeB l

def sortEntries (l : List ZoneEntry) : List ZoneEntry :=
  sortBy (fun a b => strLeB a.tz_id b.tz_id) l

theorem perm_insertSorted {α : Type} (le : α → α → Bool) (a : α) (l : List α) :
    (insertSorted le a l).Perm (a :: l) := by
  induction l with
  | nil => exact List.Perm.refl _
  | cons b t ih =>
    unfold insertSorted
    split
    · exact List.Perm.refl _
    · exact (ih.cons b).trans (List.Perm.swap a b t)

theorem perm_sortBy {α : Type} (le : α → α → Bool) (l : List α) :
    (sortBy le l).Perm l := by
  induction l with
  | nil => exact List.Perm.refl _
  | cons a t ih => exact (perm_insertSorted le a (sortBy le t)).trans (ih.cons a)

/-- Source `canonical_set`: the union of the canonical lists. -/
def canonicalSet (cl : List (CKey × List String)) : List String :=
  cl.flatMap (fun p => p.2)

/-- Python dict assignment on an association list with unique keys:
replace in place, else append. -/
def assocSet {β : Type} : List (String × β) → String → β → List (String × β)
  | [], k, v => [(k, v)]
  | p :: rest, k, v =>
    if p.1 = k then (k, v) :: rest else p :: assocSet rest k v

/-- One canonical zone's contribution to the realpath index: the three
dicts `realpath_to_country`, `realpath_to_canonical`, `realpath_score`
are updated together, so they are one association list to a triple.
A non-link entry (score 1) beats a link entry (score 0); ties keep the
earlier entry (`score > prev` strictly). -/
def realpathIndexStep (resolve : String → Option String) (is_link : String → Bool)
    (key : CKey) (idx : List (String × (CKey × String × Int))) (tz : String) :
    List (String × (CKey × String × Int)) :=
  match resolve tz with
  | none => idx
  | some real =>
    let score : Int := if is_link tz then 0 else 1
    let prev : Int :=
      match idx.lookup real with
      | some v => v.2.2
      | none => -1
    if prev < score then assocSet idx real (key, tz, score) else idx

/-- The double loop `for key, tzs in canonical_lists.items(): for tz in tzs`. -/
def buildRealpathIndex (cl : List (CKey × List String))
    (resolve : String → Option String) (is_link : String → Bool) :
    List (String × (CKey × String × Int)) :=
  cl.foldl (fun idx p => p.2.foldl (realpathIndexStep resolve is_link p.1) idx) []

/-- Source `final.setdefault(key, []).append(entry)` on the unique-keyed dict. -/
def appendGroup : List (CKey × List ZoneEntry) → CKey → ZoneEntry →
    List (CKey × List ZoneEntry)
  | [], key, e => [(key, [e])]
  | p :: rest, key, e =>
    if p.1 = key then (p.1, p.2 ++ [e]) :: rest else p :: appendGroup rest key e

/-- The alias-attachment loop over `sorted(list(unmapped))`: returns the
grown `final` and the ids still unmapped, in order. -/
def attachAliases (resolve : String → Option String)
    (idx : List (String × (CKey × String × Int))) :
    List (CKey × List ZoneEntry) → List String →
    List (CKey × List ZoneEntry) × List String
  | final, [] => (final, [])
  | final, tz :: rest =>
    match resolve tz with
    | none =>
      let r := attachAliases resolve idx final rest
      (r.1, tz :: r.2)
    | some real =>
      match idx.lookup real with
      | none =>
        let r := attachAliases resolve idx final rest
        (r.1, tz :: r.2)
      | some (key, canon, _) =>
        attachAliases resolve idx
          (appendGroup final key (ZoneEntry.mk tz true (some canon))) rest

def ZZ_KEY : CKey := ("Other/Unmapped", "ZZ")

/-- Source `for key, entries in final.items(): entries.sort(key=tz_id)`. -/
def sortGroups (f : List (CKey × List ZoneEntry)) : List (CKey × List ZoneEntry) :=
  f.map (fun p => (p.1, sortEntries p.2))

def setdefaultZZ (f : List (CKey × List ZoneEntry)) : List (CKey × List ZoneEntry) :=
  if f.any (fun p => p.1 == ZZ_KEY) then f else f ++ [(ZZ_KEY, [])]

def sortZZGroup (f : List (CKey × List ZoneEntry)) : List (CKey × List ZoneEntry) :=
  f.map (fun p => if p.1 = ZZ_KEY then (p.1, sortEntries p.2) else p)

/-- The `if unmapped:` fallback block. -/
def addUnmappedGroup (f : List (CKey × List ZoneEntry)) (remaining : List String) :
    List (CKey × List ZoneEntry) :=
  if remaining = [] then f
  else
    sortZZGroup
      (remaining.foldl
        (fun acc tz => appendGroup acc ZZ_KEY (ZoneEntry.mk tz false none))
        (setdefaultZZ f))

/-- Source `load_country_timezones` from the realpath-index stage on
(src/pytzcvrt.py lines 387-454). -/
def load_country_timezones (dirExists : Bool) (cl : List (CKey × List String))
    (all_zones : List String) (resolve : String → Option String)
    (is_link : String → Bool) : List (CKey × List ZoneEntry) :=
  let final0 := cl.map
    (fun p => (p.1, sortEntries (p.2.map (fun tz => ZoneEntry.mk tz false none))))
  let unmapped0 :=
    sortStr (all_zones.filter (fun tz => !(canonicalSet cl).contains tz))
  if dirExists then
    let idx := buildRealpathIndex cl resolve is_link
    let fr := attachAliases resolve idx final0 unmapped0
    addUnmappedGroup (sortGroups fr.1) fr.2
  else
    addUnmappedGroup (sortGroups final0) unmapped0

/-- How many entries across all groups carry a given zone id. -/
def tzOccurrences (f : List (CKey × List ZoneEntry)) (tz : String) : Nat :=
  (f.flatMap (fun p => p.2)).countP (fun e => e.tz_id == tz)

theorem tzOccurrences_appendGroup (f : List (CKey × List ZoneEntry)) (key : CKey)
    (e : ZoneEntry) (tz : String) :
    tzOccurrences (appendGroup f key e) tz =
      tzOccurrences f tz + (if e.tz_id == tz then 1 else 0) := by
  induction f with
  | nil =>
    unfold tzOccurrences appendGroup
    simp [List.countP_cons]
  | cons p rest ih =>
    unfold tzOccurrences at ih ⊢
    unfold appendGroup
    split
    · simp only [List.flatMap_cons, List.countP_append]
      simp [List.countP_cons]
      omega
    · simp only [List.flatMap_cons, List.countP_append, ih]
      omega

theorem mem_appendGroup_self (f : List (CKey × List ZoneEntry)) (key : CKey)
    (e : ZoneEntry) : e ∈ ((appendGroup f key e).lookup key).getD [] := by
  induction f with
  | nil => simp [appendGroup, List.lookup]
  | cons p rest ih =>
    unfold appendGroup
    split
    case isTrue h =>
      subst h
      simp [List.lookup]
    case isFalse h =>
      have hne : (key == p.1) = false := by
        simp only [beq_eq_false_iff_ne, ne_eq]
        exact fun he => h he.symm
      simpa [List.lookup, hne] using ih

theorem mem_appendGroup_preserve (f : List (CKey × List ZoneEntry))
    (key k2 : CKey) (e2 e : ZoneEntry)
    (h : e ∈ (f.lookup key).getD []) :
    e ∈ ((appendGroup f k2 e2).lookup key).getD [] := by
  induction f with
  | nil => simp [List.lookup] at h
  | cons p rest ih =>
    unfold appendGroup
    by_cases hk : key = p.1
    · subst hk
      simp only [List.lookup, beq_self_eq_true, Option.getD_some] at h
      split
      · simp only [List.lookup, beq_self_eq_true, Option.getD_some]
        exact List.mem_append_left _ h
      · simp [List.lookup, h]
    · have hne : (key == p.1) = false := by
        simp only [beq_eq_false_iff_ne, ne_eq]
        exact hk
      simp only [List.lookup, hne, cond_false] at h
      split
      · rename_i h2
        subst h2
        simp only [List.lookup, hne, cond_false]
        exact h
      · simp only [List.lookup, hne, cond_false]
        exact ih h

theorem mem_lookup_getD_exists {f : List (CKey × List ZoneEntry)} {key : CKey}
    {e : ZoneEntry} (h : e ∈ (f.lookup key).getD []) :
    ∃ entries, f.lookup key = some entries ∧ e ∈ entries := by
  cases hl : f.lookup key with
  | none =>
    rw [hl] at h
    simp at h
  | some l =>
    rw [hl] at h
    exact ⟨l, rfl, h⟩

theorem tzOccurrences_sortGroups (f : List (CKey × List ZoneEntry)) (tz : String) :
    tzOccurrences (sortGroups f) tz = tzOccurrences f tz := by
  induction f with
  | nil => rfl
  | cons p rest ih =>
    unfold tzOccurrences at ih ⊢
    unfold sortGroups at ih ⊢
    simp only [List.map_cons, List.flatMap_cons, List.countP_append, ih]
    have := (perm_sortBy (fun a b : ZoneEntry => strLeB a.tz_id b.tz_id) p.2).countP_eq
      (fun e => e.tz_id == tz)
    unfold sortEntries
    omega

theorem mem_sortGroups_preserve (f : List (CKey × List ZoneEntry)) (key : CKey)
    (e : ZoneEntry) (h : e ∈ (f.lookup key).getD []) :
    e ∈ ((sortGroups f).lookup key).getD [] := by
  induction f with
  | nil => simp [List.lookup] at h
  | cons p rest ih =>
    unfold sortGroups at ih ⊢
    by_cases hk : key = p.1
    · subst hk
      simp only [List.lookup, beq_self_eq_true, Option.getD_some] at h
      simp only [List.map_cons, List.lookup, beq_self_eq_true, Option.getD_some]
      exact ((perm_sortBy _ p.2).mem_iff).mpr h
    · have hne : (key == p.1) = false := by
        simp only [beq_eq_false_iff_ne, ne_eq]
        exact hk
      simp only [List.lookup, hne, cond_false] at h
      simp only [List.map_cons, List.lookup, hne, cond_false]
      exact ih h

theorem tzOccurrences_sortZZGroup (f : List (CKey × List ZoneEntry)) (tz : String) :
    tzOccurrences (sortZZGroup f) tz = tzOccurrences f tz := by
  induction f with
  | nil => rfl
  | cons p rest ih =>
    unfold tzOccurrences at ih ⊢
    unfold sortZZGroup at ih ⊢
    simp only [List.map_cons, List.flatMap_cons, List.countP_append, ih]
    split
    · have := (perm_sortBy (fun a b : ZoneEntry => strLeB a.tz_id b.tz_id) p.2).countP_eq
        (fun e => e.tz_id == tz)
      unfold sortEntries
      simp only [List.flatMap_cons, List.countP_append]
      omega
    · simp only [List.flatMap_cons, List.countP_append]

theorem mem_sortZZGroup_preserve (f : List (CKey × List ZoneEntry)) (key : CKey)
    (e : ZoneEntry) (h : e ∈ (f.lookup key).getD []) :
    e ∈ ((sortZZGroup f).lookup key).getD [] := by
  induction f with
  | nil => simp [List.lookup] at h
  | cons p rest ih =>
    unfold sortZZGroup at ih ⊢
    simp only [List.map_cons]
    by_cases hzz : p.1 = ZZ_KEY
    · rw [if_pos hzz]
      by_cases hk : key = p.1
      · subst hk
        simp only [List.lookup, beq_self_eq_true, Option.getD_some] at h
        simp only [List.lookup, beq_self_eq_true, Option.getD_some]
        exact ((perm_sortBy _ p.2).mem_iff).mpr h
      · have hne : (key == p.1) = false := by
          simp only [beq_eq_false_iff_ne, ne_eq]
          exact hk
        simp only [List.lookup, hne, cond_false] at h
        simp only [List.lookup, hne, cond_false]
        exact ih h
    · rw [if_neg hzz]
      by_cases hk : key = p.1
      · subst hk
        simp only [List.lookup, beq_self_eq_true, Option.getD_some] at h
        simp only [List.lookup, beq_self_eq_true, Option.getD_some]
        exact h
      · have hne : (key == p.1) = false := by
          simp only [beq_eq_false_iff_ne, ne_eq]
          exact hk
        simp only [List.lookup, hne, cond_false] at h
        simp only [List.lookup, hne, cond_false]
        exact ih h

theorem tzOccurrences_setdefaultZZ (f : List (CKey × List ZoneEntry)) (tz : String) :
    tzOccurrences (setdefaultZZ f) tz = tzOccurrences f tz := by
  unfold setdefaultZZ
  split
  · rfl
  · unfold tzOccurrences
    simp

theorem mem_lookup_append_preserve (f g : List (CKey × List ZoneEntry)) (key : CKey)
    (e : ZoneEntry) (h : e ∈ (f.lookup key).getD []) :
    e ∈ ((f ++ g).lookup key).getD [] := by
  induction f with
  | nil => simp [List.lookup] at h
  | cons p rest ih =>
    by_cases hk : key = p.1
    · subst hk
      simp only [List.lookup, beq_self_eq_true, Option.getD_some] at h
      simp only [List.cons_append, List.lookup, beq_self_eq_true, Option.getD_some]
      exact h
    · have hne : (key == p.1) = false := by
        simp only [beq_eq_false_iff_ne, ne_eq]
        exact hk
      simp only [List.lookup, hne, cond_false] at h
      simp only [List.cons_append, List.lookup, hne, cond_false]
      exact ih h

theorem mem_setdefaultZZ_preserve (f : List (CKey × List ZoneEntry)) (key : CKey)
    (e : ZoneEntry) (h : e ∈ (f.lookup key).getD []) :
    e ∈ ((setdefaultZZ f).lookup key).getD [] := by
  unfold setdefaultZZ
  split
  · exact h
  · exact mem_lookup_append_preserve f [(ZZ_KEY, [])] key e h

theorem attachAliases_cons_none {resolve : String → Option String}
    {idx : List (String × (CKey × String × Int))} {u : String}
    (final : List (CKey × List ZoneEntry)) (rest : List String)
    (h : resolve u = none) :
    attachAliases resolve idx final (u :: rest) =
      ((attachAliases resolve idx final rest).1,
       u :: (attachAliases resolve idx final rest).2) := by
  simp only [attachAliases]
  rw [h]

theorem attachAliases_cons_nolook {resolve : String → Option String}
    {idx : List (String × (CKey × String × Int))} {u real2 : String}
    (final : List (CKey × List ZoneEntry)) (rest : List String)
    (h : resolve u = some real2) (h2 : idx.lookup real2 = none) :
    attachAliases resolve idx final (u :: rest) =
      ((attachAliases resolve idx final rest).1,
       u :: (attachAliases resolve idx final rest).2) := by
  simp only [attachAliases]
  rw [h]
  dsimp only
  rw [h2]

theorem attachAliases_cons_hit {resolve : String → Option String}
    {idx : List (String × (CKey × String × Int))} {u real2 : String}
    {key2 : CKey} {canon2 : String} {s2 : Int}
    (final : List (CKey × List ZoneEntry)) (rest : List String)
    (h : resolve u = some real2) (h2 : idx.lookup real2 = some (key2, canon2, s2)) :
    attachAliases resolve idx final (u :: rest) =
      attachAliases resolve idx
        (appendGroup final key2 (ZoneEntry.mk u true (some canon2))) rest := by
  simp only [attachAliases]
  rw [h]
  dsimp only
  rw [h2]

/-- Processing unmapped ids other than `tz` never changes `tz`'s
occurrence count, group membership, or presence among the leftovers. -/
theorem attachAliases_miss (resolve : String → Option String)
    (idx : List (String × (CKey × String × Int))) (tz : String) :
    ∀ (ul : List String), tz ∉ ul → ∀ (final : List (CKey × List ZoneEntry)),
      tzOccurrences (attachAliases resolve idx final ul).1 tz =
        tzOccurrences final tz ∧
      (attachAliases resolve idx final ul).2.count tz = 0 ∧
      ∀ (key : CKey) (e : ZoneEntry), e ∈ (final.lookup key).getD [] →
        e ∈ (((attachAliases resolve idx final ul).1).lookup key).getD [] := by
  intro ul
  induction ul with
  | nil =>
    intro _ final
    exact ⟨rfl, rfl, fun key e h => h⟩
  | cons u rest ih =>
    intro hnm final
    have hu : u ≠ tz := fun h => hnm (h ▸ List.mem_cons_self u rest)
    have hrest : tz ∉ rest := fun h => hnm (List.mem_cons_of_mem u h)
    have hbeq : (u == tz) = false := by
      simp only [beq_eq_false_iff_ne, ne_eq]
      exact hu
    cases hres2 : resolve u with
    | none =>
      rw [attachAliases_cons_none final rest hres2]
      obtain ⟨h1, h2, h3⟩ := ih hrest final
      refine ⟨h1, ?_, h3⟩
      rw [List.count_cons, h2, hbeq]
      rfl
    | some real2 =>
      cases hlook2 : idx.lookup real2 with
      | none =>
        rw [attachAliases_cons_nolook final rest hres2 hlook2]
        obtain ⟨h1, h2, h3⟩ := ih hrest final
        refine ⟨h1, ?_, h3⟩
        rw [List.count_cons, h2, hbeq]
        rfl
      | some v =>
        obtain ⟨key2, canon2, s2⟩ := v
        rw [attachAliases_cons_hit final rest hres2 hlook2]
        obtain ⟨h1, h2, h3⟩ :=
          ih hrest (appendGroup final key2 (ZoneEntry.mk u true (some canon2)))
        refine ⟨?_, h2, fun key e he =>
          h3 key e (mem_appendGroup_preserve _ _ _ _ _ he)⟩
        rw [h1, tzOccurrences_appendGroup]
        rw [show (ZoneEntry.mk u true (some canon2)).tz_id = u from rfl, hbeq]
        rfl

/-- Attaching `tz` when its real path hits the canonical index: exactly
one alias entry is appended, into the recorded country group, carrying
the recorded canonical target; `tz` does not remain unmapped. -/
theorem attachAliases_hit (resolve : String → Option String)
    (idx : List (String × (CKey × String × Int))) (tz real : String)
    (key : CKey) (canon : String) (s : Int)
    (hres : resolve tz = some real)
    (hlook : idx.lookup real = some (key, canon, s)) :
    ∀ (ul : List String), tz ∈ ul → ul.Nodup →
      ∀ (final : List (CKey × List ZoneEntry)),
      tzOccurrences (attachAliases resolve idx final ul).1 tz =
        tzOccurrences final tz + 1 ∧
      (attachAliases resolve idx final ul).2.count tz = 0 ∧
      ZoneEntry.mk tz true (some canon) ∈
        (((attachAliases resolve idx final ul).1).lookup key).getD [] := by
  intro ul
  induction ul with
  | nil =>
    intro hmem
    exact absurd hmem (List.not_mem_nil tz)
  | cons u rest ih =>
    intro hmem hnd final
    by_cases hu : u = tz
    · subst hu
      have hrest : u ∉ rest := (List.nodup_cons.mp hnd).1
      rw [attachAliases_cons_hit final rest hres hlook]
      obtain ⟨h1, h2, h3⟩ := attachAliases_miss resolve idx u rest hrest
        (appendGroup final key (ZoneEntry.mk u true (some canon)))
      refine ⟨?_, h2, h3 key _ (mem_appendGroup_self _ _ _)⟩
      rw [h1, tzOccurrences_appendGroup]
      simp
    · have hmem2 : tz ∈ rest := by
        cases List.mem_cons.mp hmem with
        | inl h => exact absurd h.symm hu
        | inr h => exact h
      have hnd2 : rest.Nodup := (List.nodup_cons.mp hnd).2
      have hbeq : (u == tz) = false := by
        simp only [beq_eq_false_iff_ne, ne_eq]
        exact hu
      cases hres2 : resolve u with
      | none =>
        rw [attachAliases_cons_none final rest hres2]
        obtain ⟨h1, h2, h3⟩ := ih hmem2 hnd2 final
        refine ⟨h1, ?_, h3⟩
        rw [List.count_cons, h2, hbeq]
        rfl
      | some real2 =>
        cases hlook2 : idx.lookup real2 with
        | none =>
          rw [attachAliases_cons_nolook final rest hres2 hlook2]
          obtain ⟨h1, h2, h3⟩ := ih hmem2 hnd2 final
          refine ⟨h1, ?_, h3⟩
          rw [List.count_cons, h2, hbeq]
          rfl
        | some v =>
          obtain ⟨key2, canon2, s2⟩ := v
          rw [attachAliases_cons_hit final rest hres2 hlook2]
          obtain ⟨h1, h2, h3⟩ :=
            ih hmem2 hnd2 (appendGroup final key2 (ZoneEntry.mk u true (some canon2)))
          refine ⟨?_, h2, h3⟩
          rw [h1, tzOccurrences_appendGroup]
          rw [show (ZoneEntry.mk u true (some canon2)).tz_id = u from rfl, hbeq]
          rfl

/-- When `tz`'s real path matches no canonical real path, nothing is
attached for it and it stays unmapped, exactly once. -/
theorem attachAliases_nohit (resolve : String → Option String)
    (idx : List (String × (CKey × String × Int))) (tz real : String)
    (hres : resolve tz = some real)
    (hlook : idx.lookup real = none) :
    ∀ (ul : List String), tz ∈ ul → ul.Nodup →
      ∀ (final : List (CKey × List ZoneEntry)),
      tzOccurrences (attachAliases resolve idx final ul).1 tz =
        tzOccurrences final tz ∧
      (attachAliases resolve idx final ul).2.count tz = 1 := by
  intro ul
  induction ul with
  | nil =>
    intro hmem
    exact absurd hmem (List.not_mem_nil tz)
  | cons u rest ih =>
    intro hmem hnd final
    by_cases hu : u = tz
    · subst hu
      have hrest : u ∉ rest := (List.nodup_cons.mp hnd).1
      rw [attachAliases_cons_nolook final rest hres hlook]
      obtain ⟨h1, h2, _⟩ := attachAliases_miss resolve idx u rest hrest final
      refine ⟨h1, ?_⟩
      rw [List.count_cons, h2]
      simp
    · have hmem2 : tz ∈ rest := by
        cases List.mem_cons.mp hmem with
        | inl h => exact absurd h.symm hu
        | inr h => exact h
      have hnd2 : rest.Nodup := (List.nodup_cons.mp hnd).2
      have hbeq : (u == tz) = false := by
        simp only [beq_eq_false_iff_ne, ne_eq]
        exact hu
      cases hres2 : resolve u with
      | none =>
        rw [attachAliases_cons_none final rest hres2]
        obtain ⟨h1, h2⟩ := ih hmem2 hnd2 final
        refine ⟨h1, ?_⟩
        rw [List.count_cons, h2, hbeq]
        rfl
      | some real2 =>
        cases hlook2 : idx.lookup real2 with
        | none =>
          rw [attachAliases_cons_nolook final rest hres2 hlook2]
          obtain ⟨h1, h2⟩ := ih hmem2 hnd2 final
          refine ⟨h1, ?_⟩
          rw [List.count_cons, h2, hbeq]
          rfl
        | some v =>
          obtain ⟨key2, canon2, s2⟩ := v
          rw [attachAliases_cons_hit final rest hres2 hlook2]
          obtain ⟨h1, h2⟩ :=
            ih hmem2 hnd2 (appendGroup final key2 (ZoneEntry.mk u true (some canon2)))
          refine ⟨?_, h2⟩
          rw [h1, tzOccurrences_appendGroup]
          rw [show (ZoneEntry.mk u true (some canon2)).tz_id = u from rfl, hbeq]
          rfl

theorem foldZZ_count (tz : String) :
    ∀ (rem : List String) (acc : List (CKey × List ZoneEntry)),
      tzOccurrences
        (rem.foldl (fun a u => appendGroup a ZZ_KEY (ZoneEntry.mk u false none)) acc) tz =
      tzOccurrences acc tz + rem.count tz := by
  intro rem
  induction rem with
  | nil =>
    intro acc
    rfl
  | cons u rest ih =>
    intro acc
    rw [List.foldl_cons, ih, tzOccurrences_appendGroup, List.count_cons]
    have : (ZoneEntry.mk u false none).tz_id = u := rfl
    rw [this]
    by_cases hu : (u == tz) = true
    · rw [hu]
      simp only [if_true]
      omega
    · rw [Bool.eq_false_iff.mpr hu]
      simp

theorem foldZZ_mem_preserve (key : CKey) (e : ZoneEntry) :
    ∀ (rem : List String) (acc : List (CKey × List ZoneEntry)),
      e ∈ (acc.lookup key).getD [] →
      e ∈ ((rem.foldl (fun a u => appendGroup a ZZ_KEY (ZoneEntry.mk u false none)) acc).lookup
        key).getD [] := by
  intro rem
  induction rem with
  | nil =>
    intro acc h
    exact h
  | cons u rest ih =>
    intro acc h
    rw [List.foldl_cons]
    exact ih _ (mem_appendGroup_preserve _ _ _ _ _ h)

theorem foldZZ_mem_self (tz : String) :
    ∀ (rem : List String) (acc : List (CKey × List ZoneEntry)), tz ∈ rem →
      ZoneEntry.mk tz false none ∈
        ((rem.foldl (fun a u => appendGroup a ZZ_KEY (ZoneEntry.mk u false none)) acc).lookup
          ZZ_KEY).getD [] := by
  intro rem
  induction rem with
  | nil =>
    intro acc h
    exact absurd h (List.not_mem_nil tz)
  | cons u rest ih =>
    intro acc h
    rw [List.foldl_cons]
    by_cases hu : u = tz
    · subst hu
      exact foldZZ_mem_preserve ZZ_KEY _ rest _ (mem_appendGroup_self _ _ _)
    · have : tz ∈ rest := by
        cases List.mem_cons.mp h with
        | inl h2 => exact absurd h2.symm hu
        | inr h2 => exact h2
      exact ih _ this

theorem addUnmappedGroup_count (f : List (CKey × List ZoneEntry))
    (remaining : List String) (tz : String) :
    tzOccurrences (addUnmappedGroup f remaining) tz =
      tzOccurrences f tz + remaining.count tz := by
  unfold addUnmappedGroup
  split
  case isTrue h =>
    subst h
    rfl
  case isFalse h =>
    rw [tzOccurrences_sortZZGroup, foldZZ_count, tzOccurrences_setdefaultZZ]

theorem addUnmappedGroup_mem_preserve (f : List (CKey × List ZoneEntry))
    (remaining : List String) (key : CKey) (e : ZoneEntry)
    (h : e ∈ (f.lookup key).getD []) :
    e ∈ ((addUnmappedGroup f remaining).lookup key).getD [] := by
  unfold addUnmappedGroup
  split
  · exact h
  · exact mem_sortZZGroup_preserve _ _ _
      (foldZZ_mem_preserve _ _ _ _ (mem_setdefaultZZ_preserve _ _ _ h))

theorem addUnmappedGroup_mem_ZZ (f : List (CKey × List ZoneEntry))
    (remaining : List String) (tz : String) (h : tz ∈ remaining) :
    ZoneEntry.mk tz false none ∈
      ((addUnmappedGroup f remaining).lookup ZZ_KEY).getD [] := by
  unfold addUnmappedGroup
  split
  case isTrue he =>
    subst he
    exact absurd h (List.not_mem_nil tz)
  case isFalse he =>
    exact mem_sortZZGroup_preserve _ _ _ (foldZZ_mem_self tz remaining _ h)

/-- No canonical group of `final0` carries an unmapped id. -/
theorem tzOccurrences_final0_zero (cl : List (CKey × List String)) (tz : String)
    (hnc : tz ∉ canonicalSet cl) :
    tzOccurrences
      (cl.map (fun p =>
        (p.1, sortEntries (p.2.map (fun c => ZoneEntry.mk c false none))))) tz = 0 := by
  unfold tzOccurrences
  rw [List.countP_eq_zero]
  intro e he
  rw [List.mem_flatMap] at he
  obtain ⟨q, hq, heq⟩ := he
  rw [List.mem_map] at hq
  obtain ⟨p, hp, rfl⟩ := hq
  have he2 : e ∈ p.2.map (fun c => ZoneEntry.mk c false none) :=
    ((perm_sortBy _ _).mem_iff).mp heq
  rw [List.mem_map] at he2
  obtain ⟨c, hc, rfl⟩ := he2
  have hcs : c ∈ canonicalSet cl := List.mem_flatMap.mpr ⟨p, hp, hc⟩
  have hne : c ≠ tz := fun h => hnc (h ▸ hcs)
  simp only [beq_eq_false_iff_ne, ne_eq]
  exact fun h => hne (beq_iff_eq.mp h)

theorem unmapped0_facts (cl : List (CKey × List String)) (all_zones : List String)
    (tz : String) (hnodup : all_zones.Nodup) (hmem : tz ∈ all_zones)
    (hnc : tz ∉ canonicalSet cl) :
    tz ∈ sortStr (all_zones.filter (fun z => !(canonicalSet cl).contains z)) ∧
    (sortStr (all_zones.filter (fun z => !(canonicalSet cl).contains z))).Nodup := by
  have hperm := perm_sortBy strLeB
    (all_zones.filter (fun z => !(canonicalSet cl).contains z))
  constructor
  · rw [sortStr, hperm.mem_iff, List.mem_filter]
    refine ⟨hmem, ?_⟩
    simp only [Bool.not_eq_eq_eq_not, Bool.not_true, ← Bool.not_eq_true]
    intro hcon
    exact hnc (List.elem_iff.mp hcon)
  · rw [sortStr, hperm.nodup_iff]
    exact hnodup.filter _

theorem assocSet_lookup_self {β : Type} (l : List (String × β)) (k : String) (v : β) :
    (assocSet l k v).lookup k = some v := by
  induction l with
  | nil => simp [assocSet, List.lookup]
  | cons p rest ih =>
    unfold assocSet
    split
    · simp [List.lookup]
    · rename_i hne
      have : (k == p.1) = false := by
        simp only [beq_eq_false_iff_ne, ne_eq]
        exact fun h => hne h.symm
      simp only [List.lookup, this, cond_false]
      exact ih

theorem assocSet_lookup_ne {β : Type} (l : List (String × β)) (k r : String) (v : β)
    (h : r ≠ k) : (assocSet l k v).lookup r = l.lookup r := by
  induction l with
  | nil =>
    have : (r == k) = false := by
      simp only [beq_eq_false_iff_ne, ne_eq]
      exact h
    simp [assocSet, List.lookup, this]
  | cons p rest ih =>
    unfold assocSet
    split
    · rename_i heq
      have h1 : (r == k) = false := by
        simp only [beq_eq_false_iff_ne, ne_eq]
        exact h
      have h2 : (r == p.1) = false := by
        simp only [beq_eq_false_iff_ne, ne_eq]
        rw [heq]
        exact h
      simp [List.lookup, h1, h2]
    · by_cases hr : r = p.1
      · subst hr
        simp [List.lookup]
      · have h2 : (r == p.1) = false := by
          simp only [beq_eq_false_iff_ne, ne_eq]
          exact hr
        simp only [List.lookup, h2, cond_false]
        exact ih

/-- Invariant of the realpath index under construction, at a fixed real
path: the stored canonical id resolves there, and the stored score is 1
exactly for a non-link entry (and is always 0 or 1). -/
def IdxInv (resolve : String → Option String) (is_link : String → Bool)
    (real : String) (idx : List (String × (CKey × String × Int))) : Prop :=
  ∀ v, idx.lookup real = some v →
    resolve v.2.1 = some real ∧ (is_link v.2.1 = false ↔ v.2.2 = 1) ∧
      (v.2.2 = 0 ∨ v.2.2 = 1)

theorem IdxInv_assocSet {resolve : String → Option String} {is_link : String → Bool}
    {real : String} {idx : List (String × (CKey × String × Int))}
    (hP : IdxInv resolve is_link real idx) (k : CKey) (c r2 : String)
    (hres : resolve c = some r2) (score : Int)
    (hsc : is_link c = false ↔ score = 1) (hsc2 : score = 0 ∨ score = 1) :
    IdxInv resolve is_link real (assocSet idx r2 (k, c, score)) := by
  intro v hv
  by_cases hr : real = r2
  · subst hr
    rw [assocSet_lookup_self] at hv
    cases hv
    exact ⟨hres, hsc, hsc2⟩
  · rw [assocSet_lookup_ne _ _ _ _ hr] at hv
    exact hP v hv

theorem step_IdxInv {resolve : String → Option String} {is_link : String → Bool}
    {real : String} {idx : List (String × (CKey × String × Int))}
    (hP : IdxInv resolve is_link real idx) (k : CKey) (c : String) :
    IdxInv resolve is_link real (realpathIndexStep resolve is_link k idx c) := by
  unfold realpathIndexStep
  cases hres : resolve c with
  | none => exact hP
  | some r2 =>
    dsimp only
    cases hlook2 : idx.lookup r2 with
    | none =>
      dsimp only
      by_cases hl : is_link c = true
      · rw [if_pos hl, if_pos (by norm_num : (-1 : Int) < 0)]
        exact IdxInv_assocSet hP k c r2 hres 0 (by simp [hl]) (Or.inl rfl)
      · rw [if_neg hl, if_pos (by norm_num : (-1 : Int) < 1)]
        exact IdxInv_assocSet hP k c r2 hres 1
          (by simp [eq_false_of_ne_true hl]) (Or.inr rfl)
    | some v =>
      dsimp only
      by_cases hl : is_link c = true
      · by_cases hcond : v.2.2 < (0 : Int)
        · rw [if_pos hl, if_pos hcond]
          exact IdxInv_assocSet hP k c r2 hres 0 (by simp [hl]) (Or.inl rfl)
        · rw [if_pos hl, if_neg hcond]
          exact hP
      · by_cases hcond : v.2.2 < (1 : Int)
        · rw [if_neg hl, if_pos hcond]
          exact IdxInv_assocSet hP k c r2 hres 1
            (by simp [eq_false_of_ne_true hl]) (Or.inr rfl)
        · rw [if_neg hl, if_neg hcond]
          exact hP

theorem step_keeps_one {resolve : String → Option String} {is_link : String → Bool}
    {real : String} {idx : List (String × (CKey × String × Int))}
    (_hP : IdxInv resolve is_link real idx)
    (hone : ∃ v, idx.lookup real = some v ∧ v.2.2 = 1) (k : CKey) (c : String) :
    ∃ v, (realpathIndexStep resolve is_link k idx c).lookup real = some v ∧
      v.2.2 = 1 := by
  obtain ⟨v, hv, hv1⟩ := hone
  unfold realpathIndexStep
  cases hres : resolve c with
  | none => exact ⟨v, hv, hv1⟩
  | some r2 =>
    dsimp only
    by_cases hr : real = r2
    · subst hr
      rw [hv]
      dsimp only
      rw [hv1]
      by_cases hl : is_link c = true
      · rw [if_pos hl, if_neg (by norm_num : ¬ (1 : Int) < 0)]
        exact ⟨v, hv, hv1⟩
      · rw [if_neg hl, if_neg (by norm_num : ¬ (1 : Int) < 1)]
        exact ⟨v, hv, hv1⟩
    · cases hlook2 : idx.lookup r2 with
      | none =>
        dsimp only
        by_cases hl : is_link c = true
        · rw [if_pos hl, if_pos (by norm_num : (-1 : Int) < 0)]
          exact ⟨v, by rw [assocSet_lookup_ne _ _ _ _ hr]; exact hv, hv1⟩
        · rw [if_neg hl, if_pos (by norm_num : (-1 : Int) < 1)]
          exact ⟨v, by rw [assocSet_lookup_ne _ _ _ _ hr]; exact hv, hv1⟩
      | some w =>
        dsimp only
        by_cases hl : is_link c = true
        · by_cases hcond : w.2.2 < (0 : Int)
          · rw [if_pos hl, if_pos hcond]
            exact ⟨v, by rw [assocSet_lookup_ne _ _ _ _ hr]; exact hv, hv1⟩
          · rw [if_pos hl, if_neg hcond]
            exact ⟨v, hv, hv1⟩
        · by_cases hcond : w.2.2 < (1 : Int)
          · rw [if_neg hl, if_pos hcond]
            exact ⟨v, by rw [assocSet_lookup_ne _ _ _ _ hr]; exact hv, hv1⟩
          · rw [if_neg hl, if_neg hcond]
            exact ⟨v, hv, hv1⟩

theorem step_creates_one {resolve : String → Option String} {is_link : String → Bool}
    {real : String} {idx : List (String × (CKey × String × Int))}
    (hP : IdxInv resolve is_link real idx) (k : CKey) (c : String)
    (hres : resolve c = some real) (hlink : is_link c = false) :
    ∃ v, (realpathIndexStep resolve is_link k idx c).lookup real = some v ∧
      v.2.2 = 1 := by
  have hl : ¬ is_link c = true := by
    rw [hlink]
    exact Bool.false_ne_true
  unfold realpathIndexStep
  rw [hres]
  dsimp only
  cases hv : idx.lookup real with
  | none =>
    dsimp only
    rw [if_neg hl, if_pos (by norm_num : (-1 : Int) < 1)]
    exact ⟨(k, c, 1), assocSet_lookup_self _ _ _, rfl⟩
  | some v =>
    dsimp only
    obtain ⟨_, _, hs01⟩ := hP v hv
    cases hs01 with
    | inl h0 =>
      rw [h0, if_neg hl, if_pos (by norm_num : (0 : Int) < 1)]
      exact ⟨(k, c, 1), assocSet_lookup_self _ _ _, rfl⟩
    | inr h1 =>
      rw [h1, if_neg hl, if_neg (by norm_num : ¬ (1 : Int) < 1)]
      exact ⟨v, hv, h1⟩

/-- The index pairs in the order the double loop visits them. -/
def pairsOf (cl : List (CKey × List String)) : List (CKey × String) :=
  cl.flatMap (fun p => p.2.map (fun tz => (p.1, tz)))

theorem buildRealpathIndex_eq_foldl (resolve : String → Option String)
    (is_link : String → Bool) :
    ∀ (cl : List (CKey × List String)) (init : List (String × (CKey × String × Int))),
      cl.foldl (fun idx p => p.2.foldl (realpathIndexStep resolve is_link p.1) idx) init =
      (pairsOf cl).foldl (fun idx q => realpathIndexStep resolve is_link q.1 idx q.2)
        init := by
  intro cl
  induction cl with
  | nil =>
    intro init
    rfl
  | cons p rest ih =>
    intro init
    rw [List.foldl_cons, ih]
    unfold pairsOf
    rw [List.flatMap_cons, List.foldl_append, List.foldl_map]

theorem fold_IdxInv {resolve : String → Option String} {is_link : String → Bool}
    {real : String} :
    ∀ (pairs : List (CKey × String)) (idx : List (String × (CKey × String × Int))),
      IdxInv resolve is_link real idx →
      IdxInv resolve is_link real
        (pairs.foldl (fun i q => realpathIndexStep resolve is_link q.1 i q.2) idx) := by
  intro pairs
  induction pairs with
  | nil =>
    intro idx h
    exact h
  | cons q rest ih =>
    intro idx h
    rw [List.foldl_cons]
    exact ih _ (step_IdxInv h q.1 q.2)

theorem fold_one {resolve : String → Option String} {is_link : String → Bool}
    {real : String} :
    ∀ (pairs : List (CKey × String)) (idx : List (String × (CKey × String × Int))),
      IdxInv resolve is_link real idx →
      ((∃ q ∈ pairs, resolve q.2 = some real ∧ is_link q.2 = false) ∨
        (∃ v, idx.lookup real = some v ∧ v.2.2 = 1)) →
      ∃ v, (pairs.foldl (fun i q => realpathIndexStep resolve is_link q.1 i q.2)
          idx).lookup real = some v ∧ v.2.2 = 1 := by
  intro pairs
  induction pairs with
  | nil =>
    intro idx hP hd
    cases hd with
    | inl h =>
      obtain ⟨q, hq, _⟩ := h
      exact absurd hq (List.not_mem_nil q)
    | inr h => exact h
  | cons q rest ih =>
    intro idx hP hd
    rw [List.foldl_cons]
    have hP2 := step_IdxInv hP q.1 q.2
    cases hd with
    | inl h =>
      obtain ⟨q2, hq2, hres2, hlink2⟩ := h
      cases List.mem_cons.mp hq2 with
      | inl heq =>
        subst heq
        exact ih _ hP2 (Or.inr (step_creates_one hP q2.1 q2.2 hres2 hlink2))
      | inr hmem =>
        exact ih _ hP2 (Or.inl ⟨q2, hmem, hres2, hlink2⟩)
    | inr h =>
      exact ih _ hP2 (Or.inr (step_keeps_one hP h q.1 q.2))

/-- Claim C5: In `load_country_timezones` (filesystem resolution
abstracted as `resolve`/`is_link`, with the zoneinfo directory
present), every zone id known to the runtime database but absent from
the canonical tables whose real path is recorded in the canonical
realpath index is emitted exactly once, as an alias `ZoneEntry`
(`is_alias = true`) whose `alias_target` is that real path's recorded
canonical representative, inside that canonical zone's country group;
every such unmapped id whose real path matches no canonical real path
appears exactly once, in the `("Other/Unmapped", "ZZ")` fallback
group; and the recorded representative is a non-symlink entry whenever
any canonical id sharing the real path is a non-symlink. -/
theorem C5_alias_inference (cl : List (CKey × List String))
    (all_zones : List String) (resolve : String → Option String)
    (is_link : String → Bool) (tz real : String)
    (hnodup : all_zones.Nodup) (hmem : tz ∈ all_zones)
    (hnc : tz ∉ canonicalSet cl) (hres : resolve tz = some real) :
    (∀ key canon s,
      (buildRealpathIndex cl resolve is_link).lookup real = some (key, canon, s) →
      tzOccurrences (load_country_timezones true cl all_zones resolve is_link) tz = 1 ∧
      ∃ entries,
        (load_country_timezones true cl all_zones resolve is_link).lookup key =
          some entries ∧
        ZoneEntry.mk tz true (some canon) ∈ entries) ∧
    ((buildRealpathIndex cl resolve is_link).lookup real = none →
      tzOccurrences (load_country_timezones true cl all_zones resolve is_link) tz = 1 ∧
      ∃ entries,
        (load_country_timezones true cl all_zones resolve is_link).lookup ZZ_KEY =
          some entries ∧
        ZoneEntry.mk tz false none ∈ entries) ∧
    (∀ key canon s,
      (buildRealpathIndex cl resolve is_link).lookup real = some (key, canon, s) →
      (∃ c, c ∈ canonicalSet cl ∧ resolve c = some real ∧ is_link c = false) →
      is_link canon = false) := by
  obtain ⟨hmem0, hnd0⟩ := unmapped0_facts cl all_zones tz hnodup hmem hnc
  have hzero : tzOccurrences
      (cl.map (fun p =>
        (p.1, sortEntries (p.2.map (fun c => ZoneEntry.mk c false none))))) tz = 0 :=
    tzOccurrences_final0_zero cl tz hnc
  have hload : load_country_timezones true cl all_zones resolve is_link =
      addUnmappedGroup
        (sortGroups
          (attachAliases resolve (buildRealpathIndex cl resolve is_link)
            (cl.map (fun p =>
              (p.1, sortEntries (p.2.map (fun c => ZoneEntry.mk c false none)))))
            (sortStr (all_zones.filter
              (fun z => !(canonicalSet cl).contains z)))).1)
        (attachAliases resolve (buildRealpathIndex cl resolve is_link)
          (cl.map (fun p =>
            (p.1, sortEntries (p.2.map (fun c => ZoneEntry.mk c false none)))))
          (sortStr (all_zones.filter
            (fun z => !(canonicalSet cl).contains z)))).2 := by
    unfold load_country_timezones
    rw [if_pos rfl]
  refine ⟨fun key canon s hlook => ?_, fun hlook => ?_, fun key canon s hlook hex => ?_⟩
  · obtain ⟨h1, h2, h3⟩ := attachAliases_hit resolve
      (buildRealpathIndex cl resolve is_link) tz real key canon s hres hlook
      (sortStr (all_zones.filter (fun z => !(canonicalSet cl).contains z)))
      hmem0 hnd0
      (cl.map (fun p =>
        (p.1, sortEntries (p.2.map (fun c => ZoneEntry.mk c false none)))))
    rw [hload]
    constructor
    · rw [addUnmappedGroup_count, tzOccurrences_sortGroups, h1, hzero, h2]
    · exact mem_lookup_getD_exists
        (addUnmappedGroup_mem_preserve _ _ _ _
          (mem_sortGroups_preserve _ _ _ h3))
  · obtain ⟨h1, h2⟩ := attachAliases_nohit resolve
      (buildRealpathIndex cl resolve is_link) tz real hres hlook
      (sortStr (all_zones.filter (fun z => !(canonicalSet cl).contains z)))
      hmem0 hnd0
      (cl.map (fun p =>
        (p.1, sortEntries (p.2.map (fun c => ZoneEntry.mk c false none)))))
    rw [hload]
    constructor
    · rw [addUnmappedGroup_count, tzOccurrences_sortGroups, h1, hzero, h2]
    · have hmemr : tz ∈ (attachAliases resolve (buildRealpathIndex cl resolve is_link)
          (cl.map (fun p =>
            (p.1, sortEntries (p.2.map (fun c => ZoneEntry.mk c false none)))))
          (sortStr (all_zones.filter
            (fun z => !(canonicalSet cl).contains z)))).2 :=
        List.count_pos_iff.mp (by omega)
      exact mem_lookup_getD_exists (addUnmappedGroup_mem_ZZ _ _ _ hmemr)
  · obtain ⟨c, hcs, hcres, hclink⟩ := hex
    have hbe : buildRealpathIndex cl resolve is_link =
        (pairsOf cl).foldl
          (fun i q => realpathIndexStep resolve is_link q.1 i q.2) [] := by
      unfold buildRealpathIndex
      exact buildRealpathIndex_eq_foldl resolve is_link cl []
    have hemptyInv : IdxInv resolve is_link real ([] : List (String × (CKey × String × Int))) := by
      intro v hv
      simp [List.lookup] at hv
    have hInv : IdxInv resolve is_link real (buildRealpathIndex cl resolve is_link) := by
      rw [hbe]
      exact fold_IdxInv (pairsOf cl) [] hemptyInv
    obtain ⟨p, hp, hcp⟩ := List.mem_flatMap.mp hcs
    have hq : ((p.1, c) : CKey × String) ∈ pairsOf cl :=
      List.mem_flatMap.mpr ⟨p, hp, List.mem_map.mpr ⟨c, hcp, rfl⟩⟩
    obtain ⟨v, hv, hv1⟩ := fold_one (pairsOf cl) [] hemptyInv
      (Or.inl ⟨(p.1, c), hq, hcres, hclink⟩)
    rw [← hbe] at hv
    rw [hlook] at hv
    cases hv
    have := hInv (key, canon, s) hlook
    exact this.2.1.mpr hv1

/-! Concrete alias-inference scenario for the C5 witness: one canonical
Swedish zone, one link alias resolving to its real path, and one zone
resolving to an unrecorded real path. -/

def c5CL : List (CKey × List String) := [(("Sweden", "SE"), ["Europe/Stockholm"])]

def c5Zones : List String := ["Arctic/Longyearbyen", "Europe/Stockholm", "Mars/Colony"]

def c5Resolve : String → Option String :=
  fun tz =>
    if tz = "Europe/Stockholm" then some "/zi/Europe/Stockholm"
    else if tz = "Arctic/Longyearbyen" then some "/zi/Europe/Stockholm"
    else if tz = "Mars/Colony" then some "/zi/Mars/Colony"
    else none

def c5IsLink : String → Bool := fun tz => tz = "Arctic/Longyearbyen"

theorem C5_alias_inference_witness :
    (∀ key canon s,
      (buildRealpathIndex c5CL c5Resolve c5IsLink).lookup "/zi/Europe/Stockholm" =
        some (key, canon, s) →
      tzOccurrences (load_country_timezones true c5CL c5Zones c5Resolve c5IsLink)
        "Arctic/Longyearbyen" = 1 ∧
      ∃ entries,
        (load_country_timezones true c5CL c5Zones c5Resolve c5IsLink).lookup key =
          some entries ∧
        ZoneEntry.mk "Arctic/Longyearbyen" true (some canon) ∈ entries) ∧
    ((buildRealpathIndex c5CL c5Resolve c5IsLink).lookup "/zi/Europe/Stockholm" = none →
      tzOccurrences (load_country_timezones true c5CL c5Zones c5Resolve c5IsLink)
        "Arctic/Longyearbyen" = 1 ∧
      ∃ entries,
        (load_country_timezones true c5CL c5Zones c5Resolve c5IsLink).lookup ZZ_KEY =
          some entries ∧
        ZoneEntry.mk "Arctic/Longyearbyen" false none ∈ entries) ∧
    (∀ key canon s,
      (buildRealpathIndex c5CL c5Resolve c5IsLink).lookup "/zi/Europe/Stockholm" =
        some (key, canon, s) →
      (∃ c, c ∈ canonicalSet c5CL ∧ c5Resolve c = some "/zi/Europe/Stockholm" ∧
        c5IsLink c = false) →
      c5IsLink canon = false) :=
  C5_alias_inference c5CL c5Zones c5Resolve c5IsLink
    "Arctic/Longyearbyen" "/zi/Europe/Stockholm"
    (by decide) (by decide) (by decide) (by decide)

/-- The scenario's concrete output: the alias lands in Sweden's group
with its canonical target, the unmatched zone lands in the fallback
group, each exactly once. -/
example :
    load_country_timezones true c5CL c5Zones c5Resolve c5IsLink =
      [(("Sweden", "SE"),
        [ZoneEntry.mk "Arctic/Longyearbyen" true (some "Europe/Stockholm"),
         ZoneEntry.mk "Europe/Stockholm" false none]),
       (("Other/Unmapped", "ZZ"), [ZoneEntry.mk "Mars/Colony" false none])] := by
  decide

/-! Section: Country-view row construction (src/pytzcvrt.py lines 457-502)

`build_country_rows` walks `sorted(mapping.keys(), key=sort_key)` and
emits, for each group with at least one entry matching the filter, a
header row followed by the matching tz rows.  Python's `in` on strings
is substring containment (`subStr`); `.lower()` maps `Char.toLower`
over the characters (ASCII case, which covers every country name, code
and zone id involved). -/

/-- Source `needle in hay` for Python strings, on the character lists. -/
def subStr (needle : List Char) : List Char → Bool
  | [] => needle.isEmpty
  | c :: t => needle.isPrefixOf (c :: t) || subStr needle t

/-- Source `needle in hay` on strings. -/
def strContains (hay needle : String) : Bool := subStr needle.data hay.data

def pyToLower (s : String) : String := String.mk (s.data.map Char.toLower)

def pyStrip (s : String) : String := String.mk (stripChars s.data)

/-- Source `sort_key`: fallback `ZZ` groups sort after all countries. -/
def sort_key (k : CKey) : Nat × String × String :=
  (if k.2 == "ZZ" then 1 else 0, k.1, k.2)

/-- Lexicographic comparison of `sort_key` tuples (Python tuple `<=`). -/
def leKey (a b : CKey) : Bool :=
  if (sort_key a).1 ≠ (sort_key b).1 then decide ((sort_key a).1 ≤ (sort_key b).1)
  else if (sort_key a).2.1 ≠ (sort_key b).2.1 then
    strLeB (sort_key a).2.1 (sort_key b).2.1
  else strLeB (sort_key a).2.2 (sort_key b).2.2

/-- Source `sorted(mapping.keys(), key=sort_key)`. -/
def sortedCountryKeys (mapping : List (CKey × List ZoneEntry)) : List CKey :=
  sortBy leKey (mapping.map (fun p => p.1))

def headerRow (key : CKey) : Row :=
  Row.mk "header" (key.1 ++ " (" ++ key.2 ++ ")") none false none
    (some key.1) (some key.2)

def tzRow (key : CKey) (e : ZoneEntry) : Row :=
  Row.mk "tz" ("  " ++ e.tz_id ++ (if e.is_alias then " (alias)" else ""))
    (some e.tz_id) e.is_alias e.alias_target (some key.1) (some key.2)

/-- Source `country_match`: non-empty filter contained in the country name or
code (lower-cased). -/
def countryMatch (filt : String) (key : CKey) : Bool :=
  decide (filt ≠ "") &&
    (strContains (pyToLower key.1) filt || strContains (pyToLower key.2) filt)

/-- The per-entry condition of the matching loop. -/
def entryMatches (filt : String) (key : CKey) (e : ZoneEntry) : Bool :=
  strContains (pyToLower e.tz_id) filt ||
    strContains (pyToLower (e.alias_target.getD "")) filt ||
    countryMatch filt key

/-- Source `matched_entries`: everything without a filter, else the loop's filter. -/
def matchedEntries (filt : String) (key : CKey) (entries : List ZoneEntry) :
    List ZoneEntry :=
  if filt = "" then entries else entries.filter (entryMatches filt key)

/-- Source `build_country_rows(mapping, filter_text)`, accumulating rows as the
Python loop does. -/
def build_country_rows (mapping : List (CKey × List ZoneEntry))
    (filter_text : String) : List Row :=
  let filt := pyToLower (pyStrip filter_text)
  (sortedCountryKeys mapping).foldl
    (fun rows key =>
      let entries := (mapping.lookup key).getD []
      let matched := matchedEntries filt key entries
      if matched ≠ [] then rows ++ (headerRow key :: matched.map (tzRow key))
      else rows)
    []

/-- The row construction as the spec describes it: per country group in
sorted order (fallback last), either nothing (no matching entry) or a
header row immediately followed by exactly that group's matching tz
rows. -/
def country_rows_spec (mapping : List (CKey × List ZoneEntry))
    (filter_text : String) : List Row :=
  let filt := pyToLower (pyStrip filter_text)
  (sortedCountryKeys mapping).flatMap
    (fun key =>
      let m := matchedEntries filt key ((mapping.lookup key).getD [])
      if m = [] then [] else headerRow key :: m.map (tzRow key))

theorem foldl_rows_eq_flatMap (g : CKey → List Row) :
    ∀ (keys : List CKey) (init : List Row),
      keys.foldl (fun rows key => rows ++ g key) init = init ++ keys.flatMap g := by
  intro keys
  induction keys with
  | nil =>
    intro init
    simp
  | cons k rest ih =>
    intro init
    rw [List.foldl_cons, ih, List.flatMap_cons, List.append_assoc]

theorem charListLe_total : ∀ x y : List Char, (charListLe x y || charListLe y x) = true := by
  intro x
  induction x with
  | nil =>
    intro y
    simp [charListLe]
  | cons a as ih =>
    intro y
    cases y with
    | nil => simp [charListLe]
    | cons b bs =>
      unfold charListLe
      by_cases h1 : a < b
      · simp [h1]
      · by_cases h2 : b < a
        · simp [h1, h2]
        · simp [h1, h2]
          exact Bool.or_eq_true_iff.mp (ih bs)

theorem strLeB_total (a b : String) : (strLeB a b || strLeB b a) = true :=
  charListLe_total a.data b.data

theorem leKey_total (a b : CKey) : (leKey a b || leKey b a) = true := by
  unfold leKey
  by_cases h1 : (sort_key a).1 ≠ (sort_key b).1
  · have h1s : (sort_key b).1 ≠ (sort_key a).1 := fun h => h1 h.symm
    rw [if_pos h1, if_pos h1s]
    rcases Nat.le_total (sort_key a).1 (sort_key b).1 with h | h
    · simp [h]
    · simp [h]
  · have heq : (sort_key a).1 = (sort_key b).1 := not_ne_iff.mp h1
    have h1s : ¬ (sort_key b).1 ≠ (sort_key a).1 := not_ne_iff.mpr heq.symm
    rw [if_neg h1, if_neg h1s]
    by_cases h2 : (sort_key a).2.1 ≠ (sort_key b).2.1
    · have h2s : (sort_key b).2.1 ≠ (sort_key a).2.1 := fun h => h2 h.symm
      rw [if_pos h2, if_pos h2s]
      exact strLeB_total _ _
    · have heq2 : (sort_key a).2.1 = (sort_key b).2.1 := not_ne_iff.mp h2
      have h2s : ¬ (sort_key b).2.1 ≠ (sort_key a).2.1 := not_ne_iff.mpr heq2.symm
      rw [if_neg h2, if_neg h2s]
      exact strLeB_total _ _

/-- Source `leKey` pushes every `ZZ`-coded key after all non-`ZZ` keys. -/
theorem leKey_zz (a b : CKey) (h : leKey a b = true) (hzz : a.2 = "ZZ") :
    b.2 = "ZZ" := by
  by_contra hb
  have hsa : (sort_key a).1 = 1 := by
    unfold sort_key
    rw [if_pos (beq_iff_eq.mpr hzz)]
  have hsb : (sort_key b).1 = 0 := by
    unfold sort_key
    rw [if_neg (by simp [hb])]
  unfold leKey at h
  rw [if_pos (by omega : (sort_key a).1 ≠ (sort_key b).1)] at h
  rw [hsa, hsb] at h
  exact absurd (of_decide_eq_true h) (by omega)

theorem mem_insertSorted {α : Type} (le : α → α → Bool) (a x : α) (l : List α) :
    x ∈ insertSorted le a l ↔ x = a ∨ x ∈ l := by
  rw [(perm_insertSorted le a l).mem_iff, List.mem_cons]

/-- Insertion preserves any total transitive relation compatible with
the comparison. -/
theorem pairwise_insertSorted_of {α : Type} (le : α → α → Bool) (R : α → α → Prop)
    (hcompat : ∀ a b, le a b = true → R a b)
    (htot : ∀ a b, (le a b || le b a) = true)
    (htrans : ∀ a b c, R a b → R b c → R a c) (a : α) :
    ∀ l : List α, l.Pairwise R → (insertSorted le a l).Pairwise R := by
  intro l
  induction l with
  | nil =>
    intro _
    exact List.pairwise_singleton R a
  | cons b t ih =>
    intro h
    rw [List.pairwise_cons] at h
    obtain ⟨hb, ht⟩ := h
    unfold insertSorted
    split
    case isTrue hle =>
      rw [List.pairwise_cons]
      refine ⟨?_, List.pairwise_cons.mpr ⟨hb, ht⟩⟩
      intro x hx
      cases List.mem_cons.mp hx with
      | inl he =>
        rw [he]
        exact hcompat a b hle
      | inr hmem =>
        exact htrans a b x (hcompat a b hle) (hb x hmem)
    case isFalse hle =>
      rw [List.pairwise_cons]
      refine ⟨?_, ih ht⟩
      intro x hx
      cases (mem_insertSorted le a x t).mp hx with
      | inl he =>
        rw [he]
        have h2 := htot a b
        rw [Bool.eq_false_iff.mpr hle] at h2
        simp at h2
        exact hcompat b a h2
      | inr hmem =>
        exact hb x hmem

theorem pairwise_sortBy_of {α : Type} (le : α → α → Bool) (R : α → α → Prop)
    (hcompat : ∀ a b, le a b = true → R a b)
    (htot : ∀ a b, (le a b || le b a) = true)
    (htrans : ∀ a b c, R a b → R b c → R a c) :
    ∀ l : List α, (sortBy le l).Pairwise R := by
  intro l
  induction l with
  | nil => exact List.Pairwise.nil
  | cons a t ih =>
    exact pairwise_insertSorted_of le R hcompat htot htrans a (sortBy le t) ih

theorem foldl_ite_append {β : Type} (c : β → Prop) [DecidablePred c]
    (h : β → List Row) :
    ∀ (keys : List β) (init : List Row),
      keys.foldl (fun rows k => if c k then rows ++ h k else rows) init =
      init ++ keys.flatMap (fun k => if c k then h k else []) := by
  intro keys
  induction keys with
  | nil =>
    intro init
    simp
  | cons k rest ih =>
    intro init
    rw [List.foldl_cons, List.flatMap_cons]
    by_cases hc : c k
    · rw [if_pos hc, ih, if_pos hc, List.append_assoc]
    · rw [if_neg hc, ih, if_neg hc, List.nil_append]

/-- Claim C6: `build_country_rows` produces, for each country group in the
sorted key order, either nothing (no entry matches the filter) or a
header row immediately followed by exactly that group's matching tz
rows — where, with a non-empty filter, an entry matches iff its zone id
or its alias target contains the filter substring case-insensitively,
or the group's country name or code contains it (then every entry of
the group matches); and the `("Other/Unmapped", "ZZ")` fallback group
is ordered after every other group. -/
theorem C6_build_country_rows_characterization
    (mapping : List (CKey × List ZoneEntry)) (filter_text : String) :
    build_country_rows mapping filter_text = country_rows_spec mapping filter_text ∧
    (sortedCountryKeys mapping).Pairwise (fun a b => a.2 = "ZZ" → b.2 = "ZZ") := by
  constructor
  · unfold build_country_rows country_rows_spec
    dsimp only
    rw [foldl_ite_append
      (fun key => matchedEntries (pyToLower (pyStrip filter_text)) key
        ((mapping.lookup key).getD []) ≠ [])
      (fun key => headerRow key ::
        (matchedEntries (pyToLower (pyStrip filter_text)) key
          ((mapping.lookup key).getD [])).map (tzRow key))
      (sortedCountryKeys mapping) [], List.nil_append]
    congr 1
    funext key
    by_cases hm : matchedEntries (pyToLower (pyStrip filter_text)) key
        ((mapping.lookup key).getD []) = []
    · rw [if_neg (not_not_intro hm), if_pos hm]
    · rw [if_pos hm, if_neg hm]
  · exact pairwise_sortBy_of leKey _ (fun a b h => leKey_zz a b h) leKey_total
      (fun a b c hab hbc h => hbc (hab h)) (mapping.map (fun p => p.1))

/-- The spec's "bia" scenario: the filter matches country "Zambia" (and
the zone id substring), producing that group's header plus entries,
with the non-matching country absent. -/
example :
    build_country_rows
      [(("Sweden", "SE"), [ZoneEntry.mk "Europe/Stockholm" false none]),
       (("Zambia", "ZM"), [ZoneEntry.mk "Africa/Lusaka" false none])]
      "bia" =
      [headerRow ("Zambia", "ZM"),
       tzRow ("Zambia", "ZM") (ZoneEntry.mk "Africa/Lusaka" false none)] := by
  decide

/-- Fallback groups sort last even when alphabetically first. -/
example :
    sortedCountryKeys
      [(("Other/Unmapped", "ZZ"), []), (("Sweden", "SE"), []), (("Albania", "AL"), [])] =
      [("Albania", "AL"), ("Sweden", "SE"), ("Other/Unmapped", "ZZ")] := by
  decide

def c6Mapping : List (CKey × List ZoneEntry) :=
  [(("Sweden", "SE"), [ZoneEntry.mk "Europe/Stockholm" false none]),
   (("Zambia", "ZM"), [ZoneEntry.mk "Africa/Lusaka" false none]),
   (("Other/Unmapped", "ZZ"), [ZoneEntry.mk "Mars/Colony" false none])]

/-- Witness for C6 at a concrete mapping and the spec's "bia" filter. -/
theorem C6_build_country_rows_characterization_witness :
    build_country_rows c6Mapping "bia" = country_rows_spec c6Mapping "bia" ∧
    (sortedCountryKeys c6Mapping).Pairwise (fun a b => a.2 = "ZZ" → b.2 = "ZZ") :=
  C6_build_country_rows_characterization c6Mapping "bia"
